import Mathlib

/-!
Verification development for the clipcode repository: a shallow embedding of
the API route handlers (share, fetch, nearby poll/ack, pair create/confirm/
unlink, room create/join), the code generator and the fixed-window rate
limiter, together with theorems settling the spec claims.

The external key-value store is modelled as explicit state passed through each
handler.  A stored value that the handlers receive either as a JSON-parsable
record or as an already-deserialized object is represented by one `record`
constructor (both branches of the TypeScript normalize identically); a stored
string that fails `JSON.parse` is the `legacy`/`invalid` constructor.
Time is a `Nat` of seconds (or milliseconds where the source uses
`Date.now()`); a key with absolute expiry `expiresAt` is live at `now` iff
`now < expiresAt`, matching the store's TTL semantics.
-/

namespace Clipcode

/-! ## JavaScript string primitives -/

/-- Whitespace as removed by `String.prototype.trim` (space, tab, LF, CR by
code point). -/
def isWs (c : Char) : Bool :=
  c.toNat = 32 || c.toNat = 9 || c.toNat = 10 || c.toNat = 13

/-- `String.prototype.trim`: drop leading and trailing whitespace. -/
def jsTrim (s : String) : String :=
  ⟨(((s.data.dropWhile isWs).reverse.dropWhile isWs).reverse)⟩

/-- `String.prototype.slice(0, n)`. -/
def jsSlice (s : String) (n : Nat) : String :=
  ⟨s.data.take n⟩

/-- `String.prototype.startsWith`. -/
def jsStartsWith (s pre : String) : Bool :=
  pre.data.isPrefixOf s.data

/-- ASCII uppercase of one character (the inputs this is applied to are
ASCII: codes and identifiers). -/
def upChar (c : Char) : Char :=
  if 'a' ≤ c && c ≤ 'z' then Char.ofNat (c.toNat - 32) else c

/-- `String.prototype.toUpperCase` on ASCII input. -/
def jsToUpper (s : String) : String :=
  ⟨s.data.map upChar⟩

/-- A character allowed by the device/message identifier regexes
`[a-zA-Z0-9_-]` (by code point: a-z, A-Z, 0-9, underscore, hyphen). -/
def isIdChar (c : Char) : Bool :=
  (97 ≤ c.toNat && c.toNat ≤ 122) || (65 ≤ c.toNat && c.toNat ≤ 90) ||
    (48 ≤ c.toNat && c.toNat ≤ 57) || c.toNat = 95 || c.toNat = 45

/-- `/^[a-zA-Z0-9_-]{lo,hi}$/.test s`. -/
def matchesIdPattern (lo hi : Nat) (s : String) : Bool :=
  lo ≤ s.data.length && s.data.length ≤ hi && s.data.all isIdChar

/-- `normalizeDeviceId` from the route handlers: trim, then require
`/^[a-zA-Z0-9_-]{8,64}$/`, else empty string. -/
def normalizeDeviceId (value : String) : String :=
  let normalized := jsTrim value
  if normalized = "" then ""
  else if matchesIdPattern 8 64 normalized then normalized
  else ""

/-- `normalizeMessageId` from the nearby routes: trim, then require
`/^[a-zA-Z0-9_-]{8,100}$/`, else empty string. -/
def normalizeMessageId (value : String) : String :=
  let normalized := jsTrim value
  if normalized = "" then ""
  else if matchesIdPattern 8 100 normalized then normalized
  else ""

/-- `normalizeDeviceLabel`: trim then `slice(0, 40)`. -/
def normalizeDeviceLabel (value : String) : String :=
  jsSlice (jsTrim value) 40

/-- `normalizeRoomCode`: trim, strip non-digits, `slice(0, 6)`. -/
def normalizeRoomCode (value : String) : String :=
  jsSlice ⟨(jsTrim value).data.filter Char.isDigit⟩ 6

/-! ## Code generator (`lib/code-generator.ts`) -/

/-- The ambiguity-free charset of `generateCode`: uppercase letters and
digits, excluding `O`, `I`, `0`, `1`. -/
def codeCharset : String := "ABCDEFGHJKLMNPQRSTUVWXYZ23456789"

/-- The charset of `generateNumericCode`: the ten digits. -/
def numericCharset : String := "0123456789"

/-- `generateCode(length)`: each position takes
`charset[Math.floor(Math.random() * charset.length)]`.  Randomness is
shallow-embedded as the draw sequence `draws`, where `draws i` is the index
drawn at position `i` (always `< charset.length` in the source). -/
def generateCode (length : Nat) (draws : Nat → Nat) : String :=
  ⟨(List.range length).map fun i => codeCharset.data.getD (draws i) 'A'⟩

/-- `generateNumericCode(length)`, same embedding of randomness. -/
def generateNumericCode (length : Nat) (draws : Nat → Nat) : String :=
  ⟨(List.range length).map fun i => numericCharset.data.getD (draws i) '0'⟩

/-! ## Stored values

Each key family of the shared store gets one field in `Store`.  The families
have disjoint key shapes (`clipcode:<CODE>`, `clipcode:pair:sender:<ID>`,
`clipcode:pair:code:<PAIRCODE>`, `clipcode:room:<ROOMCODE>`,
`clipcode:nearby:<ID>`): generated codes and normalized device ids never
contain `:`, so the families never alias and the per-family maps are keyed by
the part after the prefix.  An entry is the stored value together with its
absolute expiry time; a `get` at time `now` sees the value iff
`now < expiresAt`, which is the store's TTL-expiry semantics. -/

/-- The Clip record written by Share (`StoredClipPayload`). -/
structure StoredClipPayload where
  links : List String
  text : String
  createdAt : Nat
  reads : Nat
deriving Repr, DecidableEq

/-- A stored clip value as read back by Fetch: the JSON record written by
Share, or (backward compatibility) a bare string that fails `JSON.parse` and
is treated as the text itself. -/
inductive RawClip where
  | record (p : StoredClipPayload)
  | plain (s : String)
deriving Repr, DecidableEq

/-- A sender-pairing record (`SenderPairPayload`); fields are optional
because arbitrary store states may lack them (`undefined` reads as `none`,
and a present JSON value is represented by its JS string coercion). -/
structure SenderPairPayload where
  receiverDeviceId : Option String
  receiverDeviceLabel : Option String
  senderDeviceLabel : Option String
deriving Repr, DecidableEq

/-- A stored sender-pairing value: a JSON record (or a string parsing to
one — both branches of the source normalize identically), or a legacy bare
device-id string that fails `JSON.parse`. -/
inductive RawSenderPair where
  | record (p : SenderPairPayload)
  | legacy (s : String)
deriving Repr, DecidableEq

/-- A pairing-code record (`PairCodePayload`). -/
structure PairCodePayload where
  receiverDeviceId : Option String
  receiverDeviceLabel : Option String
deriving Repr, DecidableEq

/-- A stored pairing-code value: record, or legacy bare device-id string. -/
inductive RawPairCode where
  | record (p : PairCodePayload)
  | legacy (s : String)
deriving Repr, DecidableEq

/-- A room member as stored (`RoomMember` before normalization); `joinedAt`
is `none` when absent or not a finite number. -/
structure RoomMember where
  deviceId : Option String
  deviceLabel : Option String
  joinedAt : Option Nat
deriving Repr, DecidableEq

/-- A room record (`RoomPayload`); `members` is `none` when the stored field
is not an array. -/
structure RoomPayload where
  hostDeviceId : Option String
  hostDeviceLabel : Option String
  createdAt : Option Nat
  members : Option (List RoomMember)
deriving Repr, DecidableEq

/-- A stored room value: record, or a string failing `JSON.parse`
(`roomPayload = null` in the source). -/
inductive RawRoom where
  | record (p : RoomPayload)
  | invalid
deriving Repr, DecidableEq

/-- A nearby-mailbox message (`NearbyPayload`), fields optional as read from
an arbitrary store state.  Share writes all of them except the optional
`text`/`senderDeviceLabel`. -/
structure NearbyMsg where
  messageId : Option String
  code : Option String
  links : Option (List String)
  text : Option String
  senderDeviceLabel : Option String
  createdAt : Option Nat
deriving Repr, DecidableEq

/-- A stored mailbox value: the versioned queue `{version, items}`, a single
message object (what Share writes), or a string failing `JSON.parse` /
non-object. -/
inductive RawMailbox where
  | queue (version : Option Nat) (items : List NearbyMsg)
  | single (m : NearbyMsg)
  | invalid
deriving Repr, DecidableEq

/-- One entry of the rate limiter: the window counter and the absolute time
at which the key expires.  `INCR` on an absent key creates the counter at 1
and the handler immediately arms the window TTL (`count === 1` branch); the
sequential embedding merges those two steps. -/
structure RLEntry where
  count : Nat
  expiresAt : Nat
deriving Repr, DecidableEq

/-- The shared key-value store, one field per key family, each entry carrying
its absolute expiry. -/
structure Store where
  clips : String → Option (RawClip × Nat)
  pairSender : String → Option (RawSenderPair × Nat)
  pairCodes : String → Option (RawPairCode × Nat)
  rooms : String → Option (RawRoom × Nat)
  nearby : String → Option (RawMailbox × Nat)

/-- Point update of a key family. -/
def upd {α : Type} (f : String → Option α) (k : String) (v : Option α) :
    String → Option α :=
  fun k' => if k' = k then v else f k'

/-- `get` under TTL expiry: the value is visible iff the key is still live. -/
def liveGet {α : Type} (entry : Option (α × Nat)) (now : Nat) : Option α :=
  match entry with
  | some (v, exp) => if now < exp then some v else none
  | none => none

/-- `ttl(key)` in seconds, as seen for a live key. -/
def liveTtl (entry : Option (α × Nat)) (now : Nat) : Int :=
  match entry with
  | some (_, exp) => (exp : Int) - now
  | none => -2

/-! ## Share route (`app/api/share/route.ts`) -/

def DEFAULT_TTL_SECONDS : Nat := 300
def ALLOWED_TTLS : List Nat := [180, 300, 600, 1800, 3600]
def MAX_TEXT_SIZE : Nat := 5000
def MAX_LINKS : Nat := 10
def MAX_LINK_SIZE : Nat := 2000
def PAIRING_TTL_SECONDS : Nat := 60 * 60 * 24 * 30
def MIN_MANUAL_CODE_LENGTH : Nat := 3
def MAX_MANUAL_CODE_LENGTH : Nat := 5

/-- `isHttpUrl`: models `new URL(value)` succeeding with protocol `http:` or
`https:` — an http(s) scheme prefix followed by a nonempty remainder. -/
def isHttpUrl (value : String) : Bool :=
  (jsStartsWith value "http://" && value.data.length > 7) ||
    (jsStartsWith value "https://" && value.data.length > 8)

/-- The allowed TTLs as integers (request values are arbitrary JSON
numbers). -/
def allowedTtlInts : List Int := ALLOWED_TTLS.map (Nat.cast)

/-- `Number(body?.ttlSeconds ?? DEFAULT_TTL_SECONDS)` followed by the
`ALLOWED_TTLS.has` check: an absent field or a value outside the allowed set
falls back to the default. -/
def resolveTtl (ttlSeconds : Option Int) : Nat :=
  match ttlSeconds with
  | none => DEFAULT_TTL_SECONDS
  | some v => if allowedTtlInts.contains v then v.toNat
              else DEFAULT_TTL_SECONDS

/-- A normalized room member: a valid nonempty device id plus optional
label/joinedAt. -/
structure NRoomMember where
  deviceId : String
  deviceLabel : Option String
  joinedAt : Option Nat
deriving Repr, DecidableEq

/-- `dedupe.set` on a JS `Map`: replace the value in place if the key is
already present (insertion order kept), else append. -/
def upsertByDeviceId (acc : List NRoomMember) (m : NRoomMember) :
    List NRoomMember :=
  if acc.any (fun x => x.deviceId = m.deviceId) then
    acc.map fun x => if x.deviceId = m.deviceId then m else x
  else acc ++ [m]

/-- The normalized member an input item maps to (assuming its device id is
valid). -/
def stepMember (fixJoinedAt : Option Nat) (item : RoomMember) : NRoomMember :=
  { deviceId := normalizeDeviceId (item.deviceId.getD "")
    deviceLabel :=
      if normalizeDeviceLabel (item.deviceLabel.getD "") = "" then none
      else some (normalizeDeviceLabel (item.deviceLabel.getD ""))
    joinedAt := match item.joinedAt with
      | some j => if 0 < j then some j else fixJoinedAt
      | none => fixJoinedAt }

/-- One step of the `normalizeMembers` fold: keep the item when its device
id is valid, normalizing label and `joinedAt`, deduplicating into the
accumulator. -/
def normalizeMemberStep (fixJoinedAt : Option Nat)
    (acc : List NRoomMember) (item : RoomMember) : List NRoomMember :=
  if normalizeDeviceId (item.deviceId.getD "") = "" then acc
  else upsertByDeviceId acc (stepMember fixJoinedAt item)

/-- Shared shape of the two `normalizeMembers` functions: keep items with a
valid device id, normalize label, dedupe by device id; `fixJoinedAt` is what
each variant substitutes for an absent/invalid `joinedAt`. -/
def normalizeMembersWith (fixJoinedAt : Option Nat) (input : List RoomMember) :
    List NRoomMember :=
  input.foldl (normalizeMemberStep fixJoinedAt) []

/-- The device ids of a normalized member list, in order. -/
def memberIds (l : List NRoomMember) : List String :=
  l.map NRoomMember.deviceId

/-- A normalized member's id is a fixpoint of `normalizeDeviceId` and
nonempty. -/
def memberIdOk (x : NRoomMember) : Prop :=
  normalizeDeviceId x.deviceId = x.deviceId ∧ x.deviceId ≠ ""

/-- `normalizeRoomMembers` of the share route: an invalid `joinedAt` becomes
`undefined`. -/
def shareNormalizeRoomMembers (input : Option (List RoomMember)) :
    List NRoomMember :=
  normalizeMembersWith none (input.getD [])

/-- The bounded retry loop shared by Share, pair create and room create:
up to `attempts` candidates, returning the first whose key does not exist. -/
def mintCode (existsFn : String → Bool) (attempts : Nat) (cand : Nat → String) :
    Option String :=
  (List.range attempts).findSome? fun i =>
    if existsFn (cand i) then none else some (cand i)

/-- The parsed Share request body (fields absent in the JSON are `none`;
present values are taken through their JS string/number coercion). -/
structure ShareRequest where
  links : Option (List String)
  text : Option String
  ttlSeconds : Option Int
  senderDeviceId : Option String
  senderDeviceLabel : Option String
  roomCode : Option String
deriving Repr, DecidableEq

inductive NearbyReason where
  | queued
  | notPaired
  | invalidPairPayload
  | noSenderDevice
  | roomNotFound
  | roomEmpty
deriving Repr, DecidableEq

/-- The Share response: HTTP error outcomes or the 200 body. -/
inductive ShareResult where
  | badRequest (msg : String)
  | payloadTooLarge
  | generationExhausted
  | ok (code : String) (expiresIn : Nat) (nearbyQueued : Bool)
      (reason : NearbyReason) (nearbyTargets : Nat)
deriving Repr, DecidableEq

/-- JS `Set.add` over an insertion-ordered list. -/
def insertTarget (l : List String) (x : String) : List String :=
  if l.contains x then l else l ++ [x]

/-- `body.links` after the handler's per-item trim and emptiness filter. -/
def shareLinks (body : ShareRequest) : List String :=
  ((body.links.getD []).map jsTrim).filter (· ≠ "")

/-- `body.text` after the handler's trim. -/
def shareText (body : ShareRequest) : String :=
  jsTrim (body.text.getD "")

/-- The four payload checks the Share handler performs before minting, in
source order: `some` is the early error response, `none` means the payload
is valid. -/
def shareCheck (links : List String) (text : String) : Option ShareResult :=
  if links.length > MAX_LINKS then some (.badRequest "Too many links")
  else if links.isEmpty && text = "" then
    some (.badRequest "At least one link or text is required")
  else if links.any (fun link =>
      link.data.length > MAX_LINK_SIZE || !isHttpUrl link) then
    some (.badRequest "Invalid links")
  else if text.data.length > MAX_TEXT_SIZE then some .payloadTooLarge
  else none

/-- The store after Share persists the clip record (`StoredClipPayload`)
under the minted code with the resolved TTL. -/
def shareStore1 (store : Store) (code : String) (links : List String)
    (text : String) (ttlSeconds now : Nat) : Store :=
  { store with
    clips := upd store.clips code
      (some (.record { links := links, text := text, createdAt := now,
                       reads := 0 }, now + ttlSeconds)) }

/-- The receiver device id Share resolves from the sender's live pairing:
`raw?.receiverDeviceId` through `normalizeDeviceId` (a legacy bare string is
the id itself; an absent or expired key resolves to `""`). -/
def shareReceiverId (store : Store) (senderDeviceId : String) (now : Nat) :
    String :=
  match liveGet (store.pairSender senderDeviceId) now with
  | none => ""
  | some (.legacy s) => normalizeDeviceId s
  | some (.record p) => normalizeDeviceId (p.receiverDeviceId.getD "")

/-- The sender label Share attaches to the published messages: the request's
label, or — when that is empty — the label stored in the pairing record. -/
def shareResolvedLabel (store : Store)
    (senderDeviceId senderDeviceLabel : String) (now : Nat) : String :=
  match liveGet (store.pairSender senderDeviceId) now with
  | some (.record p) =>
    let payloadSenderLabel := normalizeDeviceLabel (p.senderDeviceLabel.getD "")
    if senderDeviceLabel = "" && payloadSenderLabel ≠ "" then
      payloadSenderLabel
    else senderDeviceLabel
  | _ => senderDeviceLabel

/-- The room lookup Share performs, entered only when both the sender id and
the room code are nonempty. -/
def shareRoomRead (store : Store) (senderDeviceId roomCode : String)
    (now : Nat) : Option RawRoom :=
  if senderDeviceId ≠ "" && roomCode ≠ "" then
    liveGet (store.rooms roomCode) now
  else none

/-- The normalized members Share targets from the room: everyone in the
matched room except the sender (a room value that fails to parse contributes
nobody). -/
def shareRoomTargets (store : Store) (senderDeviceId roomCode : String)
    (now : Nat) : List NRoomMember :=
  match shareRoomRead store senderDeviceId roomCode now with
  | none => []
  | some .invalid => shareNormalizeRoomMembers none
  | some (.record p) =>
    (shareNormalizeRoomMembers p.members).filter
      fun member => member.deviceId ≠ senderDeviceId

/-- The resolved nearby target ids, in JS `Set` insertion order: the pairing
receiver (when found), then the room members not already present. -/
def shareTargets (store : Store) (senderDeviceId roomCode : String)
    (now : Nat) : List String :=
  (shareRoomTargets store senderDeviceId roomCode now).foldl
    (fun acc m => insertTarget acc m.deviceId)
    (if senderDeviceId ≠ "" && shareReceiverId store senderDeviceId now ≠ ""
     then [shareReceiverId store senderDeviceId now] else [])

/-- The `NearbyPayload` Share `set`s into a target's mailbox: the fresh
message id, the minted code, the shared links and text, the resolved sender
label, and the request's clock reading. -/
def shareMsg (code : String) (links : List String)
    (text resolvedSenderLabel mid : String) (now : Nat) : NearbyMsg :=
  { messageId := some mid
    code := some code
    links := some links
    text := if text = "" then none else some text
    senderDeviceLabel :=
      if resolvedSenderLabel = "" then none else some resolvedSenderLabel
    createdAt := some now }

set_option maxHeartbeats 2000000 in
/-- Everything the Share handler does after a successful mint: persist the
clip, resolve the pairing and room targets, publish to each target's
mailbox, and build the response.  The pairing-TTL refresh (`expire`) sits
between the pairing read and the room read in the source; it touches only
the `pair:sender` key, which nothing after it reads, so it is ordered after
the target resolution here. -/
def sharePublish (store : Store) (code : String) (links : List String)
    (text : String) (ttlSeconds : Nat)
    (senderDeviceId senderDeviceLabel roomCode : String)
    (msgIds : Nat → String) (now : Nat) : ShareResult × Store :=
      let store := shareStore1 store code links text ttlSeconds now
      -- Pairing resolution (only entered when senderDeviceId is nonempty);
      -- an absent key reads as a record with no fields (`raw?.receiverDeviceId`).
      let receiverDeviceId := shareReceiverId store senderDeviceId now
      let resolvedSenderLabel :=
        shareResolvedLabel store senderDeviceId senderDeviceLabel now
      let pairingReceiverFound := senderDeviceId ≠ "" && receiverDeviceId ≠ ""
      let reason : NearbyReason :=
        if senderDeviceId = "" then .noSenderDevice
        else if receiverDeviceId = "" then .invalidPairPayload
        else .noSenderDevice
      -- Room resolution.
      let roomMatched := (shareRoomRead store senderDeviceId roomCode now).isSome
      let targetMembers := shareRoomTargets store senderDeviceId roomCode now
      let roomReceiverFound := !targetMembers.isEmpty
      let nearbyTargetIds := shareTargets store senderDeviceId roomCode now
      -- `expire` refreshing the pairing TTL on success.
      let store :=
        if pairingReceiverFound then
          { store with pairSender :=
              match store.pairSender senderDeviceId with
              | some (v, _) =>
                upd store.pairSender senderDeviceId
                  (some (v, now + PAIRING_TTL_SECONDS))
              | none => store.pairSender }
        else store
      -- Publish: one plain `set` of a single message per resolved target.
      let store :=
        if !nearbyTargetIds.isEmpty then
          { store with nearby :=
              (nearbyTargetIds.enum.foldl
                (fun f (rid : Nat × String) =>
                  upd f rid.2 (some (.single
                    (shareMsg code links text resolvedSenderLabel
                      (msgIds rid.1) now), now + ttlSeconds)))
                store.nearby) }
        else store
      let nearbyQueued := !nearbyTargetIds.isEmpty
      let reason := if nearbyQueued then .queued else reason
      let reason :=
        if senderDeviceId ≠ "" && reason = .noSenderDevice then .notPaired
        else reason
      let reason :=
        if !nearbyQueued && senderDeviceId ≠ "" && roomCode ≠ "" then
          if !roomMatched then .roomNotFound
          else if !roomReceiverFound then .roomEmpty
          else if !pairingReceiverFound && reason ≠ .invalidPairPayload then
            .notPaired
          else reason
        else reason
      let reason :=
        if senderDeviceId ≠ "" && !nearbyQueued && roomCode = "" &&
            reason ≠ .invalidPairPayload then .notPaired
        else reason
      (.ok code ttlSeconds nearbyQueued reason nearbyTargetIds.length, store)

/-- The Share handler after its rate-limit step (the rate limiter is
embedded separately as `rateLimitOrThrow`): normalize the body, run the
payload checks, mint a unique code against the clip namespace (5 attempts),
then persist and publish via `sharePublish`.  Randomness enters as the
candidate code lengths `candLen i` (`MIN..MAX_MANUAL_CODE_LENGTH` in the
source), their charset draws `candDraws i`, and the fresh message ids
`msgIds k` (`crypto.randomUUID`).  `now` is the request's clock reading. -/
def sharePost (store : Store) (body : ShareRequest)
    (candLen : Nat → Nat) (candDraws : Nat → Nat → Nat)
    (msgIds : Nat → String) (now : Nat) : ShareResult × Store :=
  let links := shareLinks body
  let text := shareText body
  let ttlSeconds := resolveTtl body.ttlSeconds
  let senderDeviceId := normalizeDeviceId (body.senderDeviceId.getD "")
  let senderDeviceLabel := normalizeDeviceLabel (body.senderDeviceLabel.getD "")
  let roomCode := normalizeRoomCode (body.roomCode.getD "")
  match shareCheck links text with
  | some err => (err, store)
  | none =>
    match mintCode (fun c => (liveGet (store.clips c) now).isSome) 5
        (fun i => generateNumericCode (candLen i) (candDraws i)) with
    | none => (.generationExhausted, store)
    | some code =>
      sharePublish store code links text ttlSeconds senderDeviceId
        senderDeviceLabel roomCode msgIds now

/-! ## Fetch route (`app/api/fetch/[code]/route.ts`) -/

/-- The Fetch response: 400, 404, or the 200 body `{code, text, consumed}`
(the handler returns no links field). -/
inductive FetchResult where
  | badRequest
  | notFoundOrExpired
  | ok (code : String) (text : String)
deriving Repr, DecidableEq

/-- The Fetch handler after its rate-limit step: uppercase the code, look the
clip up, normalize (record, or bare string treated as the text), 404 on a
falsy `payload.text`, else delete the key and return the text. -/
def fetchGet (store : Store) (rawCode : String) (now : Nat) :
    FetchResult × Store :=
  let code := jsToUpper (jsTrim rawCode)
  if code = "" || code.data.length > 12 then (.badRequest, store)
  else
    match liveGet (store.clips code) now with
    | none => (.notFoundOrExpired, store)
    | some raw =>
      let text := match raw with
        | .record p => p.text
        | .plain s => s
      if text = "" then (.notFoundOrExpired, store)
      else (.ok code text, { store with clips := upd store.clips code none })

/-! ## Nearby mailbox routes (`app/api/nearby/poll`, `app/api/nearby/ack`) -/

/-- `normalizeMessageId(item.messageId)` for a stored mailbox item, used
both for the legacy check of poll and the matching of ack. -/
def msgKey (m : NearbyMsg) : String :=
  normalizeMessageId (m.messageId.getD "")

/-- A mailbox item's links after trim and emptiness filter. -/
def normLinks (m : NearbyMsg) : List String :=
  ((m.links.getD []).map jsTrim).filter (· ≠ "")

/-- A mailbox item's text after trim. -/
def normText (m : NearbyMsg) : String :=
  jsTrim (m.text.getD "")

/-- `normalizeNearbyPayload` of the poll route: trim/uppercase the fields,
drop empty links, and reject an item with neither links nor text.  `now`
stands for the `Date.now()` fallback of `createdAt`. -/
def normalizeNearbyPayload (input : NearbyMsg) (now : Nat) : Option NearbyMsg :=
  let links := normLinks input
  let text := normText input
  let code := jsToUpper (jsTrim (input.code.getD ""))
  let messageId := msgKey input
  let senderDeviceLabel := jsSlice (jsTrim (input.senderDeviceLabel.getD "")) 40
  if links.isEmpty && text = "" then none
  else some
    { messageId := if messageId = "" then none else some messageId
      code := if code = "" then none else some code
      links := some links
      text := if text = "" then none else some text
      senderDeviceLabel :=
        if senderDeviceLabel = "" then none else some senderDeviceLabel
      createdAt := match input.createdAt with
        | some c => if 0 < c then some c else some now
        | none => some now }

/-- `parseNearbyItems` of the poll route: queue items are normalized and the
invalid ones dropped; a single object becomes a one-item queue. -/
def pollParseItems (raw : RawMailbox) (now : Nat) : List NearbyMsg :=
  match raw with
  | .queue _ items => items.filterMap fun i => normalizeNearbyPayload i now
  | .single m => (normalizeNearbyPayload m now).toList
  | .invalid => []

/-- `parseNearbyItems` of the ack route: no normalization of the items. -/
def ackParseItems (raw : RawMailbox) : List NearbyMsg :=
  match raw with
  | .queue _ items => items
  | .single m => [m]
  | .invalid => []

/-- The item of a successful poll response (`createdAt` is not returned). -/
structure PollItem where
  messageId : Option String
  code : Option String
  links : List String
  text : Option String
  senderDeviceLabel : Option String
deriving Repr, DecidableEq

inductive PollResult where
  | badRequest
  | notFound
  | found (item : PollItem)
deriving Repr, DecidableEq

/-- The response item the poll handler builds from the first queued item
(the handler's own re-normalization of the already-normalized item; the
stored `createdAt` is not returned). -/
def pollItemOf (m : NearbyMsg) : PollItem :=
  let links := m.links.getD []
  let text := jsTrim (m.text.getD "")
  let code := jsToUpper (jsTrim (m.code.getD ""))
  let messageId := msgKey m
  let senderDeviceLabel := jsSlice (jsTrim (m.senderDeviceLabel.getD "")) 40
  { messageId := if messageId = "" then none else some messageId
    code := if code = "" then none else some code
    links := links
    text := if text = "" then none else some text
    senderDeviceLabel :=
      if senderDeviceLabel = "" then none else some senderDeviceLabel }

/-- The poll handler: peek at the first queued item; a first item without a
`messageId` (legacy shape) is consumed immediately, otherwise the stored
value is left untouched. -/
def pollGet (store : Store) (receiverRaw : String) (now : Nat) :
    PollResult × Store :=
  let receiverDeviceId := normalizeDeviceId receiverRaw
  if receiverDeviceId = "" then (.badRequest, store)
  else
    match liveGet (store.nearby receiverDeviceId) now with
    | none => (.notFound, store)
    | some raw =>
      match pollParseItems raw now with
      | [] => (.notFound,
          { store with nearby := upd store.nearby receiverDeviceId none })
      | currentItem :: rest =>
        let store :=
          if msgKey currentItem = "" then
            if rest.isEmpty then
              { store with nearby := upd store.nearby receiverDeviceId none }
            else
              let ttl := liveTtl (store.nearby receiverDeviceId) now
              let ex := if ttl > 0 then ttl.toNat else 60
              let rewritten := upd store.nearby receiverDeviceId
                (some (.queue (some 2) rest, now + ex))
              { store with nearby := rewritten }
          else store
        (.found (pollItemOf currentItem), store)

inductive AckResult where
  | badRequest
  | ok (consumed : Bool)
deriving Repr, DecidableEq

/-- The ack handler: remove the queue entries matching `messageId`; delete
the key when the queue empties, else rewrite the remainder with the key's
remaining TTL; report `consumed := false` without mutation when nothing
matches. -/
def ackPost (store : Store) (receiverRaw messageIdRaw : String) (now : Nat) :
    AckResult × Store :=
  let receiverDeviceId := normalizeDeviceId receiverRaw
  let messageId := normalizeMessageId messageIdRaw
  if receiverDeviceId = "" || messageId = "" then (.badRequest, store)
  else
    match liveGet (store.nearby receiverDeviceId) now with
    | none => (.ok false, store)
    | some raw =>
      let items := ackParseItems raw
      let remaining := items.filter fun item => msgKey item ≠ messageId
      if remaining.length < items.length then
        if remaining.isEmpty then
          (.ok true,
           { store with nearby := upd store.nearby receiverDeviceId none })
        else
          let ttl := liveTtl (store.nearby receiverDeviceId) now
          let ex := if ttl > 0 then ttl.toNat else 60
          let rewritten := upd store.nearby receiverDeviceId
            (some (.queue (some 2) remaining, now + ex))
          (.ok true, { store with nearby := rewritten })
      else (.ok false, store)

/-! ## Pairing routes (`app/api/pair/create`, `pair/confirm` and
`pair/unlink`) -/

def PAIR_CODE_TTL_SECONDS : Nat := 600

/-- `normalizePairCode`: trim, uppercase, strip characters outside `A-Z0-9`,
`slice(0, 6)`. -/
def normalizePairCode (value : String) : String :=
  jsSlice
    ⟨(jsToUpper (jsTrim value)).data.filter fun c =>
      ('A' ≤ c && c ≤ 'Z') || ('0' ≤ c && c ≤ '9')⟩ 6

inductive PairCreateResult where
  | badRequest
  | exhausted
  | ok (pairCode : String) (expiresIn : Nat)
deriving Repr, DecidableEq

/-- The pair-create handler: mint an alphanumeric code against the
pairing-code namespace (5 attempts) and store the receiver under it for
10 minutes. -/
def pairCreatePost (store : Store) (receiverIdRaw receiverLabelRaw : String)
    (draws : Nat → Nat → Nat) (now : Nat) : PairCreateResult × Store :=
  let receiverDeviceId := normalizeDeviceId receiverIdRaw
  let receiverDeviceLabel := normalizeDeviceLabel receiverLabelRaw
  if receiverDeviceId = "" then (.badRequest, store)
  else
    match mintCode (fun c => (liveGet (store.pairCodes c) now).isSome) 5
        (fun i => generateCode 6 (draws i)) with
    | none => (.exhausted, store)
    | some pairCode =>
      let payload : PairCodePayload :=
        { receiverDeviceId := some receiverDeviceId
          receiverDeviceLabel :=
            if receiverDeviceLabel = "" then none
            else some receiverDeviceLabel }
      let written := upd store.pairCodes pairCode
        (some (.record payload, now + PAIR_CODE_TTL_SECONDS))
      (.ok pairCode PAIR_CODE_TTL_SECONDS, { store with pairCodes := written })

inductive PairConfirmResult where
  | badRequest
  | notFound
  | ok (receiverDeviceId : String) (receiverDeviceLabel : Option String)
      (expiresIn : Nat)
deriving Repr, DecidableEq

/-- The receiver a stored pairing-code value resolves to (record field, or
the legacy bare device-id string). -/
def pairCodeReceiver (raw : Option RawPairCode) : String :=
  match raw with
  | none => ""
  | some (.record p) => normalizeDeviceId (p.receiverDeviceId.getD "")
  | some (.legacy s) => normalizeDeviceId s

/-- The receiver label a stored pairing-code value carries. -/
def pairCodeLabel (raw : Option RawPairCode) : String :=
  match raw with
  | some (.record p) => normalizeDeviceLabel (p.receiverDeviceLabel.getD "")
  | _ => ""

/-- The pair-confirm handler: resolve the pairing code (record or legacy bare
string), 404 when no valid receiver id results, else write the sender's
pairing with the 30-day TTL and delete the pairing code. -/
def pairConfirmPost (store : Store)
    (pairCodeRaw senderIdRaw senderLabelRaw : String) (now : Nat) :
    PairConfirmResult × Store :=
  let pairCode := normalizePairCode pairCodeRaw
  let senderDeviceId := normalizeDeviceId senderIdRaw
  let senderDeviceLabel := normalizeDeviceLabel senderLabelRaw
  if pairCode = "" || senderDeviceId = "" then (.badRequest, store)
  else
    let raw := liveGet (store.pairCodes pairCode) now
    let receiverDeviceId := pairCodeReceiver raw
    let receiverDeviceLabel := pairCodeLabel raw
    if receiverDeviceId = "" then (.notFound, store)
    else
      let payload : SenderPairPayload :=
        { receiverDeviceId := some receiverDeviceId
          receiverDeviceLabel :=
            if receiverDeviceLabel = "" then none else some receiverDeviceLabel
          senderDeviceLabel :=
            if senderDeviceLabel = "" then none else some senderDeviceLabel }
      let written := upd store.pairSender senderDeviceId
        (some (.record payload, now + PAIRING_TTL_SECONDS))
      let store := { store with pairSender := written }
      let store := { store with pairCodes := upd store.pairCodes pairCode none }
      (.ok receiverDeviceId
        (if receiverDeviceLabel = "" then none else some receiverDeviceLabel)
        PAIRING_TTL_SECONDS, store)

/-- `resolveReceiverDeviceId` of the unlink route. -/
def resolveReceiverDeviceId (raw : Option RawSenderPair) : String :=
  match raw with
  | none => ""
  | some (.record p) => normalizeDeviceId (p.receiverDeviceId.getD "")
  | some (.legacy s) => normalizeDeviceId s

inductive UnlinkResult where
  | badRequest
  | ok (senderDeviceId : String) (receiverDeviceId : Option String)
deriving Repr, DecidableEq

/-- The receiver the unlink handler acts on: the normalized provided id, or
— when none was provided — the receiver the sender's own pairing resolves
to. -/
def unlinkReceiver (store : Store) (senderIdRaw receiverIdRaw : String)
    (now : Nat) : String :=
  let senderDeviceId := normalizeDeviceId senderIdRaw
  let provided := normalizeDeviceId receiverIdRaw
  if provided = "" then
    resolveReceiverDeviceId (liveGet (store.pairSender senderDeviceId) now)
  else provided

/-- The unlink handler: delete the sender's pairing (absence is not an
error); when a receiver id is provided or resolvable, delete the receiver's
own pairing too unless it points at a different device. -/
def pairUnlinkPost (store : Store) (senderIdRaw receiverIdRaw : String)
    (now : Nat) : UnlinkResult × Store :=
  let senderDeviceId := normalizeDeviceId senderIdRaw
  if senderDeviceId = "" then (.badRequest, store)
  else
    let receiverDeviceId := unlinkReceiver store senderIdRaw receiverIdRaw now
    let store := { store with
      pairSender := upd store.pairSender senderDeviceId none }
    let store :=
      if receiverDeviceId ≠ "" then
        let reverseTarget :=
          resolveReceiverDeviceId
            (liveGet (store.pairSender receiverDeviceId) now)
        if reverseTarget = "" || reverseTarget = senderDeviceId then
          { store with
            pairSender := upd store.pairSender receiverDeviceId none }
        else store
      else store
    (.ok senderDeviceId
      (if receiverDeviceId = "" then none else some receiverDeviceId), store)

/-! ## Room routes (`app/api/room/create`, `app/api/room/join`) -/

def ROOM_TTL_SECONDS : Nat := 60 * 60 * 2

/-- `normalizeMembers` of the join route: an absent/invalid `joinedAt`
becomes `Date.now()`. -/
def joinNormalizeMembers (input : Option (List RoomMember)) (now : Nat) :
    List NRoomMember :=
  normalizeMembersWith (some now) (input.getD [])

/-- A normalized member written back to the store. -/
def nMemberToStored (m : NRoomMember) : RoomMember :=
  { deviceId := some m.deviceId, deviceLabel := m.deviceLabel,
    joinedAt := m.joinedAt }

inductive RoomCreateResult where
  | badRequest
  | exhausted
  | ok (roomCode : String) (expiresIn memberCount : Nat)
deriving Repr, DecidableEq

/-- The room-create handler: mint a numeric code against the room namespace
(10 attempts) and seed the room with the host as sole member for 2 hours. -/
def roomCreatePost (store : Store) (hostIdRaw hostLabelRaw : String)
    (draws : Nat → Nat → Nat) (now : Nat) : RoomCreateResult × Store :=
  let hostDeviceId := normalizeDeviceId hostIdRaw
  let hostDeviceLabel := normalizeDeviceLabel hostLabelRaw
  if hostDeviceId = "" then (.badRequest, store)
  else
    match mintCode (fun c => (liveGet (store.rooms c) now).isSome) 10
        (fun i => generateNumericCode 6 (draws i)) with
    | none => (.exhausted, store)
    | some roomCode =>
      let hostMember : RoomMember :=
        { deviceId := some hostDeviceId
          deviceLabel :=
            if hostDeviceLabel = "" then none else some hostDeviceLabel
          joinedAt := some now }
      let payload : RoomPayload :=
        { hostDeviceId := some hostDeviceId
          hostDeviceLabel :=
            if hostDeviceLabel = "" then none else some hostDeviceLabel
          createdAt := some now
          members := some [hostMember] }
      let written := upd store.rooms roomCode
        (some (.record payload, now + ROOM_TTL_SECONDS))
      (.ok roomCode ROOM_TTL_SECONDS 1, { store with rooms := written })

inductive RoomJoinResult where
  | badRequest
  | notFound
  | invalidPayload
  | ok (roomCode : String) (expiresIn memberCount : Nat)
deriving Repr, DecidableEq

/-- The member list after a join against payload `p`: the caller upserted
into the normalized members, deduplicated by device id, the label updated in
place when a new nonempty label is given. -/
def joinedMembers (p : RoomPayload) (deviceId deviceLabel : String)
    (now : Nat) : List NRoomMember :=
  let members0 := joinNormalizeMembers p.members now
  if members0.any (fun e => e.deviceId = deviceId) then
    members0.map fun e =>
      if e.deviceId = deviceId then
        { e with deviceLabel :=
            if deviceLabel ≠ "" then some deviceLabel else e.deviceLabel }
      else e
  else members0 ++
    [{ deviceId := deviceId
       deviceLabel := if deviceLabel = "" then none else some deviceLabel
       joinedAt := some now }]

/-- The room record a join writes back. -/
def joinedPayload (p : RoomPayload) (deviceId deviceLabel : String)
    (now : Nat) : RoomPayload :=
  let hostId := normalizeDeviceId (p.hostDeviceId.getD "")
  let hostLabel := normalizeDeviceLabel (p.hostDeviceLabel.getD "")
  { hostDeviceId := some (if hostId = "" then deviceId else hostId)
    hostDeviceLabel := if hostLabel = "" then none else some hostLabel
    createdAt := some (match p.createdAt with
      | some c => if c ≠ 0 then c else now
      | none => now)
    members := some ((joinedMembers p deviceId deviceLabel now).map
      nMemberToStored) }

/-- The room-join handler: 404 when the room is absent or expired; otherwise
upsert the caller into the deduplicated member list (label updated in place
when a new label is given) and rewrite the record with its remaining TTL. -/
def roomJoinPost (store : Store)
    (roomCodeRaw deviceIdRaw deviceLabelRaw : String) (now : Nat) :
    RoomJoinResult × Store :=
  let roomCode := normalizeRoomCode roomCodeRaw
  let deviceId := normalizeDeviceId deviceIdRaw
  let deviceLabel := normalizeDeviceLabel deviceLabelRaw
  if roomCode = "" || deviceId = "" then (.badRequest, store)
  else
    match liveGet (store.rooms roomCode) now with
    | none => (.notFound, store)
    | some .invalid => (.invalidPayload, store)
    | some (.record payload) =>
      let ttl := liveTtl (store.rooms roomCode) now
      let expiresIn := if ttl > 0 then ttl.toNat else ROOM_TTL_SECONDS
      let nextPayload := joinedPayload payload deviceId deviceLabel now
      let written := upd store.rooms roomCode
        (some (.record nextPayload, now + expiresIn))
      (.ok roomCode expiresIn
        (joinedMembers payload deviceId deviceLabel now).length,
       { store with rooms := written })

/-! ## Fixed-window rate limiter (`rateLimitOrThrow`) -/

inductive RLOut where
  | ok (remaining resetSeconds : Nat)
  | limited (resetSeconds : Nat)
deriving Repr, DecidableEq

/-- One rate-limiter check at time `now`: atomically increment the window
counter (an expired or absent key restarts at 1 and arms the window TTL),
read the remaining TTL, and fail with `limited resetSeconds` when the
post-increment counter exceeds the limit. -/
def rateLimitOrThrow (st : Option RLEntry) (now limit window : Nat) :
    RLOut × Option RLEntry :=
  let live := match st with
    | some e => if now < e.expiresAt then some e else none
    | none => none
  let count := (match live with | some e => e.count | none => 0) + 1
  let entry : RLEntry := match live with
    | none => { count := count, expiresAt := now + window }
    | some e => { e with count := count }
  let ttl : Int := (entry.expiresAt : Int) - now
  let resetSeconds : Nat := if ttl > 0 then ttl.toNat else window
  if count > limit then (.limited resetSeconds, some entry)
  else (.ok (limit - count) resetSeconds, some entry)

/-- The sequence of outcomes of successive checks at the given times. -/
def rateLimitRun (st : Option RLEntry) (times : List Nat)
    (limit window : Nat) : List RLOut × Option RLEntry :=
  match times with
  | [] => ([], st)
  | t :: ts =>
    let step := rateLimitOrThrow st t limit window
    let rest := rateLimitRun step.2 ts limit window
    (step.1 :: rest.1, rest.2)

/-- The share route's catch handler for `RATE_LIMIT`: HTTP status 429 and a
`Retry-After` header carrying `resetSeconds`. -/
def shareRateLimited429 (resetSeconds : Nat) : Nat × Nat :=
  (429, resetSeconds)

/-- The outcomes a window armed at `E` with `k` calls already counted yields
for further calls at the given times (all before `E`): the `(k+i+1)`-th
call of the window is allowed while `k+i+1 ≤ limit` and limited after. -/
def rlExpected (limit E : Nat) : Nat → List Nat → List RLOut
  | _, [] => []
  | k, t :: ts =>
    (if k + 1 > limit then RLOut.limited (E - t)
     else RLOut.ok (limit - (k + 1)) (E - t)) :: rlExpected limit E (k + 1) ts

/-! ## Concrete fixtures used by witnesses and counterexamples -/

/-- A store with no keys. -/
def emptyStore : Store :=
  { clips := fun _ => none, pairSender := fun _ => none,
    pairCodes := fun _ => none, rooms := fun _ => none,
    nearby := fun _ => none }

/-- A minimal valid Share body: one link, no text, no sender, no room. -/
def linkOnlyBody : ShareRequest :=
  { links := some ["https://a.example"], text := none, ttlSeconds := some 180,
    senderDeviceId := none, senderDeviceLabel := none, roomCode := none }

/-- The run of a links-only Share against the empty store (code draws pick
`"222"`). -/
def c1Run : ShareResult × Store :=
  sharePost emptyStore linkOnlyBody (fun _ => 3) (fun _ _ => 2)
    (fun _ => "m") 1000

/-- A message already pending in a receiver's mailbox queue. -/
def pendingMsg : NearbyMsg :=
  { messageId := some "pending-01", code := some "111",
    links := some ["https://one.example"], text := none,
    senderDeviceLabel := none, createdAt := some 500 }

/-- A pairing of `sender-0001` to `receiver-01`. -/
def c2Pairing : RawSenderPair :=
  .record { receiverDeviceId := some "receiver-01",
            receiverDeviceLabel := none, senderDeviceLabel := none }

/-- A store where `sender-0001` is paired to `receiver-01` and the
receiver's mailbox holds `prev`. -/
def c2StoreWith (prev : Option (RawMailbox × Nat)) : Store :=
  { emptyStore with
    pairSender := upd emptyStore.pairSender "sender-0001"
      (some (c2Pairing, 10000000))
    nearby := upd emptyStore.nearby "receiver-01" prev }

/-- A Share from the paired sender (code draws pick `"777"`). -/
def c2Body : ShareRequest :=
  { links := some ["https://b.example"], text := none, ttlSeconds := some 300,
    senderDeviceId := some "sender-0001", senderDeviceLabel := none,
    roomCode := none }

/-- The message such a Share publishes at time `now` with message id
`mid`. -/
def c2NewMsg (mid : String) (now : Nat) : NearbyMsg :=
  { messageId := some mid, code := some "777",
    links := some ["https://b.example"], text := none,
    senderDeviceLabel := none, createdAt := some now }

/-- A placeholder clip value. -/
def someClip : RawClip :=
  .record { links := [], text := "x", createdAt := 0, reads := 0 }

/-- A placeholder pairing-code value. -/
def somePairCode : RawPairCode :=
  .record { receiverDeviceId := some "receiver-01",
            receiverDeviceLabel := none }

/-- A placeholder room value. -/
def someRoom : RawRoom :=
  .record { hostDeviceId := some "receiver-01", hostDeviceLabel := none,
            createdAt := some 1, members := some [] }

/-- A store whose whole clip namespace is occupied (every mint attempt
collides). -/
def fullClipStore : Store :=
  { emptyStore with clips := fun _ => some (someClip, 10000) }

/-- A store whose whole pairing-code namespace is occupied. -/
def fullPairCodeStore : Store :=
  { emptyStore with pairCodes := fun _ => some (somePairCode, 10000) }

/-- A store whose whole room namespace is occupied. -/
def fullRoomStore : Store :=
  { emptyStore with rooms := fun _ => some (someRoom, 10000) }

/-- A sender-pairing record pointing at `rid`. -/
def mkPair (rid : String) : RawSenderPair :=
  .record { receiverDeviceId := some rid, receiverDeviceLabel := none,
            senderDeviceLabel := none }

/-- A store with a reciprocal pairing between `sender-0001` and
`receiver-01`. -/
def c8Reciprocal : Store :=
  { emptyStore with pairSender := fun k =>
      if k = "sender-0001" then some (mkPair "receiver-01", 5000)
      else if k = "receiver-01" then some (mkPair "sender-0001", 5000)
      else none }

/-- A store where `sender-0001` points at `receiver-01` but `receiver-01`
itself points at a third device. -/
def c8OtherTarget : Store :=
  { emptyStore with pairSender := fun k =>
      if k = "sender-0001" then some (mkPair "receiver-01", 5000)
      else if k = "receiver-01" then some (mkPair "third-00001", 5000)
      else none }

/-- A first pending mailbox message (already in normalized shape). -/
def c6m1 : NearbyMsg :=
  { messageId := some "mmmm0001", code := some "111",
    links := some ["https://one.example"], text := none,
    senderDeviceLabel := none, createdAt := some 10 }

/-- A second pending mailbox message. -/
def c6m2 : NearbyMsg :=
  { messageId := some "mmmm0002", code := some "222",
    links := some ["https://two.example"], text := none,
    senderDeviceLabel := none, createdAt := some 20 }

/-- A legacy mailbox message without a message id. -/
def c6Legacy : NearbyMsg :=
  { messageId := none, code := some "333",
    links := some ["https://three.example"], text := none,
    senderDeviceLabel := none, createdAt := some 30 }

/-- The two-message queue value held by the `receiver-01` mailbox. -/
def c6Queue : RawMailbox := .queue (some 2) [c6m1, c6m2]

/-- A store whose `receiver-01` mailbox holds the two-message queue. -/
def c6Store : Store :=
  { emptyStore with nearby := fun k =>
      if k = "receiver-01" then some (c6Queue, 5000) else none }

/-- A store whose `receiver-01` mailbox holds a single legacy message. -/
def c6LegacyStore : Store :=
  { emptyStore with nearby := fun k =>
      if k = "receiver-01" then some (.single c6Legacy, 5000) else none }

/-- A pairing-code record for `receiver-01`, no label. -/
def c9PairCode : RawPairCode :=
  .record { receiverDeviceId := some "receiver-01",
            receiverDeviceLabel := none }

/-- A store holding one pairing code `A2B3C4` for `receiver-01`. -/
def c9Store : Store :=
  { emptyStore with pairCodes := fun k =>
      if k = "A2B3C4" then some (c9PairCode, 600) else none }

/-- A live room payload hosted by `host-000001` with the host as sole
member. -/
def c7Payload : RoomPayload :=
  { hostDeviceId := some "host-000001", hostDeviceLabel := none,
    createdAt := some 5,
    members := some [{ deviceId := some "host-000001", deviceLabel := none,
                       joinedAt := some 5 }] }

/-- A store holding the room `847362` with two hours of TTL left. -/
def c7Store : Store :=
  { emptyStore with rooms := fun k =>
      if k = "847362" then some (.record c7Payload, 7200) else none }

/-! ## Claim theorems -/

/-- **C3, counterexample.**  The claim has the two charsets swapped: the
share route mints its code with `generateNumericCode` (so a share code can
contain `0`, which is outside the ambiguity-free charset), while the
pair-create route mints with `generateCode` (so a pairing code can consist
of letters, not digits).  Witnessed by running both handlers on an empty
store at explicit draw sequences. -/
theorem C3_counterexample :
    (sharePost emptyStore
      { linkOnlyBody with ttlSeconds := none }
      (fun _ => 3) (fun _ _ => 0) (fun _ => "m") 0).1
      = .ok "000" 300 false .noSenderDevice 0 ∧
    ¬ (∀ c ∈ ("000" : String).data, c ∈ codeCharset.data) ∧
    (pairCreatePost emptyStore "receiver-01" "" (fun _ _ => 0) 0).1
      = .ok "AAAAAA" 600 ∧
    ¬ (∀ c ∈ ("AAAAAA" : String).data, c ∈ numericCharset.data) := by
  refine ⟨rfl, by decide, rfl, by decide⟩

/-- **C3, amended.**  Every code produced by `generateNumericCode` — the
generator used for share codes and room codes — consists of digits only, and
every code produced by `generateCode` — the generator used for pairing
codes — consists only of characters from the ambiguity-free charset
(uppercase letters and digits excluding `O`, `I`, `0`, `1`). -/
theorem C3_generator_charsets (n m : Nat) (d e : Nat → Nat)
    (hd : ∀ i, d i < numericCharset.data.length)
    (he : ∀ i, e i < codeCharset.data.length) :
    (∀ c ∈ (generateNumericCode n d).data, c ∈ numericCharset.data) ∧
    (∀ c ∈ (generateCode m e).data, c ∈ codeCharset.data) := by
  constructor
  · intro c hc
    simp only [generateNumericCode, List.mem_map, List.mem_range] at hc
    obtain ⟨i, -, rfl⟩ := hc
    rw [List.getD_eq_getElem _ _ (hd i)]
    exact List.getElem_mem _
  · intro c hc
    simp only [generateCode, List.mem_map, List.mem_range] at hc
    obtain ⟨i, -, rfl⟩ := hc
    rw [List.getD_eq_getElem _ _ (he i)]
    exact List.getElem_mem _

/-- **C3, witness** for the amended theorem at concrete draw sequences. -/
theorem C3_generator_charsets_witness :
    (∀ c ∈ (generateNumericCode 3 (fun _ => 5)).data,
        c ∈ numericCharset.data) ∧
    (∀ c ∈ (generateCode 6 (fun _ => 5)).data, c ∈ codeCharset.data) := by
  refine C3_generator_charsets 3 6 (fun _ => 5) (fun _ => 5) ?_ ?_
  · intro i
    show (5 : Nat) < 10
    decide
  · intro i
    show (5 : Nat) < 32
    decide

/-- **C10.**  A Share whose `ttlSeconds` is outside the allowed set is not
rejected: the TTL resolves to the 300-second default, and the whole request
behaves identically (same response, same final store) to one that asked for
300 seconds. -/
theorem C10_ttl_fallback
    (links : Option (List String)) (text : Option String)
    (sid slabel rcode : Option String) (t : Int)
    (h : allowedTtlInts.contains t = false) :
    resolveTtl (some t) = DEFAULT_TTL_SECONDS ∧
    resolveTtl (some 300) = DEFAULT_TTL_SECONDS ∧
    ∀ (store : Store) (cl : Nat → Nat) (cd : Nat → Nat → Nat)
      (mi : Nat → String) (now : Nat),
      sharePost store ⟨links, text, some t, sid, slabel, rcode⟩ cl cd mi now =
        sharePost store ⟨links, text, some 300, sid, slabel, rcode⟩ cl cd mi now := by
  have ht : resolveTtl (some t) = DEFAULT_TTL_SECONDS := by
    show (if allowedTtlInts.contains t = true then t.toNat
      else DEFAULT_TTL_SECONDS) = DEFAULT_TTL_SECONDS
    rw [h]
    simp
  have h300 : resolveTtl (some 300) = DEFAULT_TTL_SECONDS := by decide
  refine ⟨ht, h300, fun store cl cd mi now => ?_⟩
  simp only [sharePost, shareLinks, shareText, ht, h300]

/-- **C10, witness** at a concrete out-of-set TTL request (999 seconds). -/
theorem C10_ttl_fallback_witness :
    resolveTtl (some 999) = DEFAULT_TTL_SECONDS ∧
    resolveTtl (some 300) = DEFAULT_TTL_SECONDS ∧
    sharePost emptyStore
        ⟨some ["https://a.example"], none, some 999, none, none, none⟩
        (fun _ => 3) (fun _ _ => 2) (fun _ => "m") 1000 =
      sharePost emptyStore
        ⟨some ["https://a.example"], none, some 300, none, none, none⟩
        (fun _ => 3) (fun _ _ => 2) (fun _ => "m") 1000 := by
  have h := C10_ttl_fallback (some ["https://a.example"]) none none none none
    999 (by decide)
  exact ⟨h.1, h.2.1, h.2.2 emptyStore (fun _ => 3) (fun _ _ => 2)
    (fun _ => "m") 1000⟩

/-- **C1 (code bug).**  The spec's round trip fails on a valid links-only
payload: the Share succeeds and persists the clip (with its links and empty
text), but the first Fetch of the returned code — executed well before
expiry — answers 404 NotFoundOrExpired because the handler treats an empty
`text` as not-found, and it does not consume the clip.  (The Fetch success
shape `FetchResult.ok` carries no links at all, so no Fetch response can
ever return the stored links array.) -/
theorem C1_fetch_links_only_clip_404 :
    c1Run.1 = .ok "222" 180 false .noSenderDevice 0 ∧
    c1Run.2.clips "222" = some (.record
      { links := ["https://a.example"], text := "", createdAt := 1000,
        reads := 0 }, 1180) ∧
    (fetchGet c1Run.2 "222" 1001).1 = .notFoundOrExpired ∧
    (fetchGet c1Run.2 "222" 1001).2.clips "222" = c1Run.2.clips "222" :=
  ⟨rfl, rfl, rfl, rfl⟩

/-- **C2, counterexample.**  A Share from a paired sender whose receiver
already has a message pending does not append: the publish plainly `set`s a
single-message value, so the previously pending message is no longer in the
mailbox afterwards. -/
theorem C2_counterexample :
    (sharePost (c2StoreWith (some (.queue (some 2) [pendingMsg], 10000)))
        c2Body (fun _ => 3) (fun _ _ => 7) (fun _ => "freshmsg01") 1000).1
      = .ok "777" 300 true .queued 1 ∧
    (sharePost (c2StoreWith (some (.queue (some 2) [pendingMsg], 10000)))
        c2Body (fun _ => 3) (fun _ _ => 7) (fun _ => "freshmsg01") 1000).2.nearby
        "receiver-01"
      = some (.single (c2NewMsg "freshmsg01" 1000), 1300) ∧
    pendingMsg ∉ ackParseItems (.single (c2NewMsg "freshmsg01" 1000)) :=
  ⟨rfl, rfl, by decide⟩

/-- A code returned by the mint loop was seen as nonexistent by its
existence check. -/
theorem findSome?_mint_eq_some {ex : String → Bool} {cand : Nat → String}
    {c : String} :
    ∀ l : List Nat,
      (List.findSome?
        (fun i => if ex (cand i) then none else some (cand i)) l) = some c →
      ex c = false := by
  intro l
  induction l with
  | nil => intro h; simp at h
  | cons a t ih =>
    intro h
    rw [List.findSome?_cons] at h
    by_cases hx : ex (cand a)
    · rw [if_pos hx] at h
      exact ih h
    · rw [if_neg hx] at h
      simp only [Option.some.injEq] at h
      rw [← h]
      exact Bool.not_eq_true _ ▸ (by simpa using hx)

/-- `mintCode` only returns codes whose key did not exist. -/
theorem mintCode_some_not_exists {ex : String → Bool} {att : Nat}
    {cand : Nat → String} {c : String} (h : mintCode ex att cand = some c) :
    ex c = false :=
  findSome?_mint_eq_some (List.range att) h

/-- `mintCode` returns `none` when every attempt collides. -/
theorem mintCode_exhausted {ex : String → Bool} {att : Nat}
    {cand : Nat → String} (h : ∀ i < att, ex (cand i) = true) :
    mintCode ex att cand = none := by
  unfold mintCode
  rw [List.findSome?_eq_none_iff]
  intro i hi
  rw [List.mem_range] at hi
  simp [h i hi]

/-- The payload checks never produce a success or an exhaustion response. -/
theorem shareCheck_ne_ok {links : List String} {text : String}
    {r : ShareResult} (h : shareCheck links text = some r) :
    (∀ code e q rr n, r ≠ .ok code e q rr n) ∧ r ≠ .generationExhausted := by
  unfold shareCheck at h
  split at h
  · cases h; exact ⟨fun _ _ _ _ _ => by simp, by simp⟩
  split at h
  · cases h; exact ⟨fun _ _ _ _ _ => by simp, by simp⟩
  split at h
  · cases h; exact ⟨fun _ _ _ _ _ => by simp, by simp⟩
  split at h
  · cases h; exact ⟨fun _ _ _ _ _ => by simp, by simp⟩
  · cases h

/-- The post-mint phase always responds `ok` with the minted code and the
resolved TTL. -/
theorem sharePublish_fst (store : Store) (code : String) (links : List String)
    (text : String) (ttl : Nat) (sid slabel rcode : String)
    (mi : Nat → String) (now : Nat) :
    ∃ q r n,
      (sharePublish store code links text ttl sid slabel rcode mi now).1
        = .ok code ttl q r n :=
  ⟨_, _, _, rfl⟩

/-- `insertTarget` (JS `Set.add`) preserves the no-duplicates invariant. -/
theorem insertTarget_nodup {l : List String} {x : String} (h : l.Nodup) :
    (insertTarget l x).Nodup := by
  unfold insertTarget
  split
  · exact h
  · rename_i hc
    have hx : x ∉ l := by
      intro hm
      exact hc (List.elem_eq_true_of_mem hm)
    simp [List.nodup_append, h, hx]

/-- Folding `insertTarget` over any member list keeps the accumulator free
of duplicates. -/
theorem foldInsert_nodup :
    ∀ (ms : List NRoomMember) (acc : List String), acc.Nodup →
      (ms.foldl (fun acc m => insertTarget acc m.deviceId) acc).Nodup := by
  intro ms
  induction ms with
  | nil => intro acc h; exact h
  | cons a l ih => intro acc h; exact ih _ (insertTarget_nodup h)

/-- The resolved nearby target list never repeats a device id. -/
theorem shareTargets_nodup (store : Store) (sid rc : String) (now : Nat) :
    (shareTargets store sid rc now).Nodup := by
  unfold shareTargets
  apply foldInsert_nodup
  split
  · exact List.nodup_singleton _
  · exact List.nodup_nil

/-- The publish fold leaves every non-target mailbox key untouched. -/
theorem publishFold_not_mem (g : Nat → NearbyMsg) (e : Nat) :
    ∀ (targets : List String) (n : Nat)
      (f : String → Option (RawMailbox × Nat)) (t : String),
      t ∉ targets →
      ((List.enumFrom n targets).foldl
        (fun f (rid : Nat × String) =>
          upd f rid.2 (some (.single (g rid.1), e))) f) t = f t := by
  intro targets
  induction targets with
  | nil => intro n f t _; rfl
  | cons a l ih =>
    intro n f t hmem
    rw [List.mem_cons, not_or] at hmem
    show ((List.enumFrom (n + 1) l).foldl _
      (upd f a (some (.single (g n), e)))) t = f t
    rw [ih (n + 1) _ t hmem.2]
    unfold upd
    rw [if_neg hmem.1]

/-- The publish fold writes, at the target of index `i`, exactly the single
message built from the `i`-th fresh id, with the shared expiry — whatever
the key held before. -/
theorem publishFold_get (g : Nat → NearbyMsg) (e : Nat) :
    ∀ (targets : List String) (n : Nat)
      (f : String → Option (RawMailbox × Nat)) (i : Nat) (t : String),
      targets.Nodup → targets.get? i = some t →
      ((List.enumFrom n targets).foldl
        (fun f (rid : Nat × String) =>
          upd f rid.2 (some (.single (g rid.1), e))) f) t
        = some (.single (g (n + i)), e) := by
  intro targets
  induction targets with
  | nil => intro n f i t _ hget; simp at hget
  | cons a l ih =>
    intro n f i t hnd hget
    rw [List.nodup_cons] at hnd
    cases i with
    | zero =>
      rw [List.get?_cons_zero] at hget
      injection hget with hget
      subst hget
      show ((List.enumFrom (n + 1) l).foldl _
        (upd f a (some (.single (g n), e)))) a = _
      rw [publishFold_not_mem g e l (n + 1) _ a hnd.1]
      unfold upd
      rw [if_pos rfl, Nat.add_zero]
    | succ j =>
      rw [List.get?_cons_succ] at hget
      show ((List.enumFrom (n + 1) l).foldl _
        (upd f a (some (.single (g n), e)))) t = _
      rw [ih (n + 1) _ j t hnd.2 hget]
      rw [show n + 1 + j = n + (j + 1) from by omega]

set_option maxHeartbeats 1000000 in
/-- Per-target effect of the publish phase, over every store, payload, TTL,
sender, room, message-id source and clock: the mailbox key of the target at
index `i` of the resolved target list is plainly overwritten with a
single-message value holding the fresh message for that index, expiring with
the Share's TTL — regardless of what the key held before. -/
theorem sharePublish_nearby (store : Store) (code : String)
    (links : List String) (text : String) (ttl : Nat)
    (sid slabel rcode : String) (mi : Nat → String) (now : Nat)
    (i : Nat) (t : String)
    (ht : (shareTargets (shareStore1 store code links text ttl now) sid rcode
        now).get? i = some t) :
    (sharePublish store code links text ttl sid slabel rcode mi now).2.nearby t
      = some (.single (shareMsg code links text
          (shareResolvedLabel (shareStore1 store code links text ttl now) sid
            slabel now) (mi i) now), now + ttl) := by
  have hne : (shareTargets (shareStore1 store code links text ttl now) sid
      rcode now).isEmpty = false := by
    cases hL : shareTargets (shareStore1 store code links text ttl now) sid
        rcode now with
    | nil => rw [hL] at ht; simp at ht
    | cons a l => rfl
  simp only [sharePublish]
  rw [hne]
  exact (publishFold_get
    (fun k => shareMsg code links text
      (shareResolvedLabel (shareStore1 store code links text ttl now) sid
        slabel now) (mi k) now)
    (now + ttl)
    (shareTargets (shareStore1 store code links text ttl now) sid rcode now)
    0 _ i t
    (shareTargets_nodup (shareStore1 store code links text ttl now) sid rcode
      now)
    ht).trans (by rw [Nat.zero_add])

set_option maxHeartbeats 1000000 in
/-- **C2, amended.**  For every Share that the handler answers `ok` — any
prior store, any request body, any draws, message ids and clock — and for
every target of the resolved nearby target list, the handler writes that
target's mailbox key with a single-message value holding just the fresh
message (its message id, the minted code, the shared links and text, the
resolved sender label, the clock reading), stored with the Share's resolved
TTL: whatever queue was pending under that key is overwritten, not
appended to. -/
theorem C2_publish_overwrites (store : Store) (body : ShareRequest)
    (cl : Nat → Nat) (cd : Nat → Nat → Nat) (mi : Nat → String) (now : Nat)
    (code : String) (e : Nat) (q : Bool) (r : NearbyReason) (n : Nat)
    (i : Nat) (t : String)
    (h : (sharePost store body cl cd mi now).1 = .ok code e q r n)
    (ht : (shareTargets
        (shareStore1 store code (shareLinks body) (shareText body)
          (resolveTtl body.ttlSeconds) now)
        (normalizeDeviceId (body.senderDeviceId.getD ""))
        (normalizeRoomCode (body.roomCode.getD "")) now).get? i = some t) :
    e = resolveTtl body.ttlSeconds ∧
    (sharePost store body cl cd mi now).2.nearby t
      = some (.single (shareMsg code (shareLinks body) (shareText body)
          (shareResolvedLabel
            (shareStore1 store code (shareLinks body) (shareText body)
              (resolveTtl body.ttlSeconds) now)
            (normalizeDeviceId (body.senderDeviceId.getD ""))
            (normalizeDeviceLabel (body.senderDeviceLabel.getD "")) now)
          (mi i) now), now + resolveTtl body.ttlSeconds) := by
  cases hchk : shareCheck (shareLinks body) (shareText body) with
  | some err =>
    rw [show (sharePost store body cl cd mi now).1 = err from by
      simp only [sharePost, hchk]] at h
    exact absurd h ((shareCheck_ne_ok hchk).1 _ _ _ _ _)
  | none =>
    cases hmint : mintCode (fun c => (liveGet (store.clips c) now).isSome) 5
        (fun j => generateNumericCode (cl j) (cd j)) with
    | none =>
      rw [show (sharePost store body cl cd mi now).1 = .generationExhausted
        from by simp only [sharePost, hchk, hmint]] at h
      simp at h
    | some c =>
      have hps : sharePost store body cl cd mi now
          = sharePublish store c (shareLinks body) (shareText body)
              (resolveTtl body.ttlSeconds)
              (normalizeDeviceId (body.senderDeviceId.getD ""))
              (normalizeDeviceLabel (body.senderDeviceLabel.getD ""))
              (normalizeRoomCode (body.roomCode.getD "")) mi now := by
        simp only [sharePost, hchk, hmint]
      rw [hps] at h
      obtain ⟨q', r', n', hp⟩ := sharePublish_fst store c (shareLinks body)
        (shareText body) (resolveTtl body.ttlSeconds)
        (normalizeDeviceId (body.senderDeviceId.getD ""))
        (normalizeDeviceLabel (body.senderDeviceLabel.getD ""))
        (normalizeRoomCode (body.roomCode.getD "")) mi now
      rw [hp] at h
      simp only [ShareResult.ok.injEq] at h
      obtain ⟨hc2, he, -, -, -⟩ := h
      subst hc2
      refine ⟨he.symm, ?_⟩
      rw [hps]
      exact sharePublish_nearby store c (shareLinks body) (shareText body)
        (resolveTtl body.ttlSeconds)
        (normalizeDeviceId (body.senderDeviceId.getD ""))
        (normalizeDeviceLabel (body.senderDeviceLabel.getD ""))
        (normalizeRoomCode (body.roomCode.getD "")) mi now i t ht

/-- **C2, witness**: the amended theorem applied to a concrete Share — the
paired sender of the counterexample, the receiver's mailbox holding a
pending two-message queue — at target index 0. -/
theorem C2_publish_overwrites_witness :
    (sharePost (c2StoreWith (some (.queue (some 2) [pendingMsg], 10000)))
        c2Body (fun _ => 3) (fun _ _ => 7) (fun _ => "freshmsg01")
        1000).2.nearby "receiver-01"
      = some (.single (c2NewMsg "freshmsg01" 1000), 1300) := by
  have h := C2_publish_overwrites
    (c2StoreWith (some (.queue (some 2) [pendingMsg], 10000))) c2Body
    (fun _ => 3) (fun _ _ => 7) (fun _ => "freshmsg01") 1000
    "777" 300 true .queued 1 0 "receiver-01" rfl rfl
  exact h.2.trans rfl

/-- A Share that responds `ok` returns a code with no live clip at mint
time. -/
theorem share_ok_code_not_live (store : Store) (body : ShareRequest)
    (cl : Nat → Nat) (cd : Nat → Nat → Nat) (mi : Nat → String) (now : Nat)
    (code : String) (e : Nat) (q : Bool) (r : NearbyReason) (n : Nat)
    (h : (sharePost store body cl cd mi now).1 = .ok code e q r n) :
    liveGet (store.clips code) now = none := by
  simp only [sharePost] at h
  split at h
  · rename_i err heq
    simp only [] at h
    exact absurd h ((shareCheck_ne_ok heq).1 _ _ _ _ _)
  · split at h
    · simp at h
    · rename_i c hc
      have hex := mintCode_some_not_exists hc
      obtain ⟨q', r', n', hp⟩ := sharePublish_fst store c (shareLinks body)
        (shareText body) (resolveTtl body.ttlSeconds)
        (normalizeDeviceId (body.senderDeviceId.getD ""))
        (normalizeDeviceLabel (body.senderDeviceLabel.getD ""))
        (normalizeRoomCode (body.roomCode.getD "")) mi now
      rw [hp] at h
      simp only [ShareResult.ok.injEq] at h
      obtain ⟨rfl, -, -, -, -⟩ := h
      cases hO : liveGet (store.clips c) now with
      | none => rfl
      | some v =>
        rw [hO] at hex
        simp at hex

/-- A valid Share whose five mint attempts all collide responds with the
generation-exhausted error (HTTP 500). -/
theorem share_all_collide_500 (store : Store) (body : ShareRequest)
    (cl : Nat → Nat) (cd : Nat → Nat → Nat) (mi : Nat → String) (now : Nat)
    (hv : shareCheck (shareLinks body) (shareText body) = none)
    (hcol : ∀ i < 5,
      (liveGet (store.clips (generateNumericCode (cl i) (cd i))) now).isSome
        = true) :
    (sharePost store body cl cd mi now).1 = .generationExhausted := by
  simp only [sharePost, hv]
  rw [mintCode_exhausted hcol]

/-- A pair-create whose five mint attempts all collide responds with the
generation error (HTTP 500). -/
theorem pairCreate_all_collide_500 (store : Store) (rRaw lRaw : String)
    (draws : Nat → Nat → Nat) (now : Nat)
    (hr : normalizeDeviceId rRaw ≠ "")
    (hcol : ∀ i < 5,
      (liveGet (store.pairCodes (generateCode 6 (draws i))) now).isSome
        = true) :
    (pairCreatePost store rRaw lRaw draws now).1 = .exhausted := by
  simp only [pairCreatePost]
  rw [if_neg hr, mintCode_exhausted hcol]

/-- A room-create whose ten mint attempts all collide responds with the
generation error (HTTP 500). -/
theorem roomCreate_all_collide_500 (store : Store) (hRaw lRaw : String)
    (draws : Nat → Nat → Nat) (now : Nat)
    (hr : normalizeDeviceId hRaw ≠ "")
    (hcol : ∀ i < 10,
      (liveGet (store.rooms (generateNumericCode 6 (draws i))) now).isSome
        = true) :
    (roomCreatePost store hRaw lRaw draws now).1 = .exhausted := by
  simp only [roomCreatePost]
  rw [if_neg hr, mintCode_exhausted hcol]

/-- **C4.**  Uniqueness-at-creation and bounded retry: a Share that returns
a code only does so when the existence check saw no live clip under that
code at mint time; and when every attempt of the retry budget collides —
5 attempts for clip codes, 5 for pair codes, 10 for room codes — the
operation fails with the generation-exhausted error instead of returning a
code. -/
theorem C4_mint_uniqueness_and_exhaustion :
    (∀ (store : Store) (body : ShareRequest) (cl : Nat → Nat)
        (cd : Nat → Nat → Nat) (mi : Nat → String) (now : Nat)
        (code : String) (e : Nat) (q : Bool) (r : NearbyReason) (n : Nat),
        (sharePost store body cl cd mi now).1 = .ok code e q r n →
        liveGet (store.clips code) now = none) ∧
    (∀ (store : Store) (body : ShareRequest) (cl : Nat → Nat)
        (cd : Nat → Nat → Nat) (mi : Nat → String) (now : Nat),
        shareCheck (shareLinks body) (shareText body) = none →
        (∀ i < 5, (liveGet (store.clips
            (generateNumericCode (cl i) (cd i))) now).isSome = true) →
        (sharePost store body cl cd mi now).1 = .generationExhausted) ∧
    (∀ (store : Store) (rRaw lRaw : String) (draws : Nat → Nat → Nat)
        (now : Nat),
        normalizeDeviceId rRaw ≠ "" →
        (∀ i < 5, (liveGet (store.pairCodes
            (generateCode 6 (draws i))) now).isSome = true) →
        (pairCreatePost store rRaw lRaw draws now).1 = .exhausted) ∧
    (∀ (store : Store) (hRaw lRaw : String) (draws : Nat → Nat → Nat)
        (now : Nat),
        normalizeDeviceId hRaw ≠ "" →
        (∀ i < 10, (liveGet (store.rooms
            (generateNumericCode 6 (draws i))) now).isSome = true) →
        (roomCreatePost store hRaw lRaw draws now).1 = .exhausted) :=
  ⟨share_ok_code_not_live, share_all_collide_500,
   pairCreate_all_collide_500, roomCreate_all_collide_500⟩

/-- **C4, witness**: a successful Share's code had no live clip; and against
fully occupied namespaces, Share, pair-create and room-create all report
exhaustion. -/
theorem C4_witness :
    liveGet (emptyStore.clips "222") 1000 = none ∧
    (sharePost fullClipStore linkOnlyBody (fun _ => 3) (fun _ _ => 2)
      (fun _ => "m") 0).1 = .generationExhausted ∧
    (pairCreatePost fullPairCodeStore "receiver-01" "" (fun _ _ => 0) 0).1
      = .exhausted ∧
    (roomCreatePost fullRoomStore "receiver-01" "" (fun _ _ => 0) 0).1
      = .exhausted :=
  ⟨C4_mint_uniqueness_and_exhaustion.1 emptyStore linkOnlyBody (fun _ => 3)
      (fun _ _ => 2) (fun _ => "m") 1000 "222" 180 false .noSenderDevice 0 rfl,
   C4_mint_uniqueness_and_exhaustion.2.1 fullClipStore linkOnlyBody
      (fun _ => 3) (fun _ _ => 2) (fun _ => "m") 0 rfl (fun _ _ => rfl),
   C4_mint_uniqueness_and_exhaustion.2.2.1 fullPairCodeStore "receiver-01" ""
      (fun _ _ => 0) 0 (by decide) (fun _ _ => rfl),
   C4_mint_uniqueness_and_exhaustion.2.2.2 fullRoomStore "receiver-01" ""
      (fun _ _ => 0) 0 (by decide) (fun _ _ => rfl)⟩

/-- Unlink always succeeds (also on an absent record) and deletes the
sender's pairing. -/
theorem unlink_ok_and_sender_deleted (store : Store) (sRaw rRaw : String)
    (now : Nat) (hs : normalizeDeviceId sRaw ≠ "") :
    (pairUnlinkPost store sRaw rRaw now).1
      = .ok (normalizeDeviceId sRaw)
        (if unlinkReceiver store sRaw rRaw now = "" then none
         else some (unlinkReceiver store sRaw rRaw now)) ∧
    (pairUnlinkPost store sRaw rRaw now).2.pairSender
        (normalizeDeviceId sRaw) = none := by
  simp only [pairUnlinkPost, if_neg hs]
  constructor
  · trivial
  · by_cases hr : unlinkReceiver store sRaw rRaw now ≠ ""
    · rw [if_pos hr]
      split
      · simp [upd]
      · simp [upd]
    · rw [if_neg hr]
      simp [upd]

/-- When the receiver's own pairing points back at the sender, unlink
deletes it too. -/
theorem unlink_reciprocal_deleted (store : Store) (sRaw rRaw : String)
    (now : Nat) (hs : normalizeDeviceId sRaw ≠ "")
    (hr : unlinkReceiver store sRaw rRaw now ≠ "")
    (hrs : unlinkReceiver store sRaw rRaw now ≠ normalizeDeviceId sRaw)
    (hback : resolveReceiverDeviceId (liveGet
        (store.pairSender (unlinkReceiver store sRaw rRaw now)) now)
      = normalizeDeviceId sRaw) :
    (pairUnlinkPost store sRaw rRaw now).2.pairSender
        (unlinkReceiver store sRaw rRaw now) = none := by
  simp only [pairUnlinkPost, if_neg hs, if_pos hr]
  rw [if_pos]
  · simp [upd]
  · simp only [upd, if_neg hrs]
    simp [hback]

/-- A receiver pairing that points at some other device is left
unchanged. -/
theorem unlink_other_preserved (store : Store) (sRaw rRaw : String)
    (now : Nat) (t : String) (hs : normalizeDeviceId sRaw ≠ "")
    (hr : unlinkReceiver store sRaw rRaw now ≠ "")
    (hrs : unlinkReceiver store sRaw rRaw now ≠ normalizeDeviceId sRaw)
    (hother : resolveReceiverDeviceId (liveGet
        (store.pairSender (unlinkReceiver store sRaw rRaw now)) now) = t)
    (ht : t ≠ "") (hts : t ≠ normalizeDeviceId sRaw) :
    (pairUnlinkPost store sRaw rRaw now).2.pairSender
        (unlinkReceiver store sRaw rRaw now)
      = store.pairSender (unlinkReceiver store sRaw rRaw now) := by
  simp only [pairUnlinkPost, if_neg hs, if_pos hr]
  rw [if_neg]
  · simp [upd, hrs]
  · simp only [upd, if_neg hrs, hother]
    simp [ht, hts]

/-- Unlink touches nothing else: any other pairing key and every other key
family is unchanged. -/
theorem unlink_frame (store : Store) (sRaw rRaw : String) (now : Nat)
    (hs : normalizeDeviceId sRaw ≠ "") (k : String)
    (hk1 : k ≠ normalizeDeviceId sRaw)
    (hk2 : k ≠ unlinkReceiver store sRaw rRaw now) :
    (pairUnlinkPost store sRaw rRaw now).2.pairSender k
        = store.pairSender k ∧
    (pairUnlinkPost store sRaw rRaw now).2.clips = store.clips ∧
    (pairUnlinkPost store sRaw rRaw now).2.nearby = store.nearby ∧
    (pairUnlinkPost store sRaw rRaw now).2.rooms = store.rooms ∧
    (pairUnlinkPost store sRaw rRaw now).2.pairCodes = store.pairCodes := by
  simp only [pairUnlinkPost, if_neg hs]
  by_cases hr : unlinkReceiver store sRaw rRaw now ≠ ""
  · rw [if_pos hr]
    split
    · simp [upd, hk1, hk2]
    · simp [upd, hk1, hk2]
  · rw [if_neg hr]
    simp [upd, hk1, hk2]

/-- **C8.**  Unlink deletes the sender's pairing and succeeds even when no
record exists; the receiver's own pairing is additionally deleted when it
points back at this sender, while a receiver pairing pointing at some other
device — and every unrelated key — is left unchanged. -/
theorem C8_unlink_semantics :
    (∀ (store : Store) (sRaw rRaw : String) (now : Nat),
        normalizeDeviceId sRaw ≠ "" →
        (pairUnlinkPost store sRaw rRaw now).1
          = .ok (normalizeDeviceId sRaw)
            (if unlinkReceiver store sRaw rRaw now = "" then none
             else some (unlinkReceiver store sRaw rRaw now)) ∧
        (pairUnlinkPost store sRaw rRaw now).2.pairSender
            (normalizeDeviceId sRaw) = none) ∧
    (∀ (store : Store) (sRaw rRaw : String) (now : Nat),
        normalizeDeviceId sRaw ≠ "" →
        unlinkReceiver store sRaw rRaw now ≠ "" →
        unlinkReceiver store sRaw rRaw now ≠ normalizeDeviceId sRaw →
        resolveReceiverDeviceId (liveGet
            (store.pairSender (unlinkReceiver store sRaw rRaw now)) now)
          = normalizeDeviceId sRaw →
        (pairUnlinkPost store sRaw rRaw now).2.pairSender
            (unlinkReceiver store sRaw rRaw now) = none) ∧
    (∀ (store : Store) (sRaw rRaw : String) (now : Nat) (t : String),
        normalizeDeviceId sRaw ≠ "" →
        unlinkReceiver store sRaw rRaw now ≠ "" →
        unlinkReceiver store sRaw rRaw now ≠ normalizeDeviceId sRaw →
        resolveReceiverDeviceId (liveGet
            (store.pairSender (unlinkReceiver store sRaw rRaw now)) now) = t →
        t ≠ "" → t ≠ normalizeDeviceId sRaw →
        (pairUnlinkPost store sRaw rRaw now).2.pairSender
            (unlinkReceiver store sRaw rRaw now)
          = store.pairSender (unlinkReceiver store sRaw rRaw now)) ∧
    (∀ (store : Store) (sRaw rRaw : String) (now : Nat),
        normalizeDeviceId sRaw ≠ "" →
        ∀ k, k ≠ normalizeDeviceId sRaw →
        k ≠ unlinkReceiver store sRaw rRaw now →
        (pairUnlinkPost store sRaw rRaw now).2.pairSender k
            = store.pairSender k ∧
        (pairUnlinkPost store sRaw rRaw now).2.clips = store.clips ∧
        (pairUnlinkPost store sRaw rRaw now).2.nearby = store.nearby ∧
        (pairUnlinkPost store sRaw rRaw now).2.rooms = store.rooms ∧
        (pairUnlinkPost store sRaw rRaw now).2.pairCodes
            = store.pairCodes) :=
  ⟨unlink_ok_and_sender_deleted, unlink_reciprocal_deleted,
   unlink_other_preserved,
   fun store sRaw rRaw now hs k hk1 hk2 =>
     unlink_frame store sRaw rRaw now hs k hk1 hk2⟩

/-- **C8, witness**: unlink of an absent record still succeeds; a reciprocal
pairing is deleted on both sides; a receiver pointing at a third device is
untouched; unrelated keys are untouched. -/
theorem C8_witness :
    (pairUnlinkPost emptyStore "sender-0001" "" 0).1
        = .ok "sender-0001" none ∧
    (pairUnlinkPost emptyStore "sender-0001" "" 0).2.pairSender
        "sender-0001" = none ∧
    (pairUnlinkPost c8Reciprocal "sender-0001" "" 0).2.pairSender
        "receiver-01" = none ∧
    (pairUnlinkPost c8OtherTarget "sender-0001" "" 0).2.pairSender
        "receiver-01" = c8OtherTarget.pairSender "receiver-01" ∧
    (pairUnlinkPost c8Reciprocal "sender-0001" "" 0).2.pairSender
        "third-00001" = c8Reciprocal.pairSender "third-00001" :=
  ⟨(C8_unlink_semantics.1 emptyStore "sender-0001" "" 0 (by decide)).1,
   (C8_unlink_semantics.1 emptyStore "sender-0001" "" 0 (by decide)).2,
   C8_unlink_semantics.2.1 c8Reciprocal "sender-0001" "" 0 (by decide)
     (by decide) (by decide) (by decide),
   C8_unlink_semantics.2.2.1 c8OtherTarget "sender-0001" "" 0 "third-00001"
     (by decide) (by decide) (by decide) (by decide) (by decide) (by decide),
   (C8_unlink_semantics.2.2.2 c8Reciprocal "sender-0001" "" 0 (by decide)
     "third-00001" (by decide) (by decide)).1⟩

/-- Confirm with a pairing code that resolves to no receiver (absent,
expired, or invalid) answers 404 and leaves the store untouched. -/
theorem pairConfirm_notFound (store : Store) (cRaw sRaw lRaw : String)
    (now : Nat) (hpc : normalizePairCode cRaw ≠ "")
    (hs : normalizeDeviceId sRaw ≠ "")
    (hnf : pairCodeReceiver
      (liveGet (store.pairCodes (normalizePairCode cRaw)) now) = "") :
    (pairConfirmPost store cRaw sRaw lRaw now).1 = .notFound ∧
    (pairConfirmPost store cRaw sRaw lRaw now).2 = store := by
  simp only [pairConfirmPost]
  rw [if_neg (by simp [hpc, hs])]
  rw [if_pos hnf]
  exact ⟨rfl, rfl⟩

/-- A successful confirm writes the sender's pairing with the 30-day TTL and
deletes the pairing code. -/
theorem pairConfirm_success (store : Store) (cRaw sRaw lRaw : String)
    (now : Nat) (hpc : normalizePairCode cRaw ≠ "")
    (hs : normalizeDeviceId sRaw ≠ "")
    (hres : pairCodeReceiver
      (liveGet (store.pairCodes (normalizePairCode cRaw)) now) ≠ "") :
    (pairConfirmPost store cRaw sRaw lRaw now).1
      = .ok (pairCodeReceiver
          (liveGet (store.pairCodes (normalizePairCode cRaw)) now))
        (if pairCodeLabel
            (liveGet (store.pairCodes (normalizePairCode cRaw)) now) = ""
         then none
         else some (pairCodeLabel
           (liveGet (store.pairCodes (normalizePairCode cRaw)) now)))
        PAIRING_TTL_SECONDS ∧
    (pairConfirmPost store cRaw sRaw lRaw now).2.pairSender
        (normalizeDeviceId sRaw)
      = some (.record
          { receiverDeviceId := some (pairCodeReceiver
              (liveGet (store.pairCodes (normalizePairCode cRaw)) now))
            receiverDeviceLabel :=
              if pairCodeLabel
                  (liveGet (store.pairCodes (normalizePairCode cRaw)) now)
                  = ""
              then none
              else some (pairCodeLabel
                (liveGet (store.pairCodes (normalizePairCode cRaw)) now))
            senderDeviceLabel :=
              if normalizeDeviceLabel lRaw = "" then none
              else some (normalizeDeviceLabel lRaw) },
          now + PAIRING_TTL_SECONDS) ∧
    (pairConfirmPost store cRaw sRaw lRaw now).2.pairCodes
        (normalizePairCode cRaw) = none := by
  simp only [pairConfirmPost]
  rw [if_neg (by simp [hpc, hs])]
  rw [if_neg hres]
  refine ⟨rfl, ?_, ?_⟩
  · simp [upd]
  · simp [upd]

/-- A pairing code can be confirmed at most once: after a successful
confirm, a second confirm of the same code answers 404. -/
theorem pairConfirm_at_most_once (store : Store)
    (cRaw sRaw sRaw2 lRaw lRaw2 : String) (now now2 : Nat)
    (hpc : normalizePairCode cRaw ≠ "")
    (hs : normalizeDeviceId sRaw ≠ "") (hs2 : normalizeDeviceId sRaw2 ≠ "")
    (hres : pairCodeReceiver
      (liveGet (store.pairCodes (normalizePairCode cRaw)) now) ≠ "") :
    (pairConfirmPost (pairConfirmPost store cRaw sRaw lRaw now).2
        cRaw sRaw2 lRaw2 now2).1 = .notFound := by
  have hgone : (pairConfirmPost store cRaw sRaw lRaw now).2.pairCodes
      (normalizePairCode cRaw) = none := by
    simp only [pairConfirmPost]
    rw [if_neg (by simp [hpc, hs]), if_neg hres]
    simp [upd]
  have h2 := pairConfirm_notFound (pairConfirmPost store cRaw sRaw lRaw now).2
    cRaw sRaw2 lRaw2 now2 hpc hs2 (by rw [hgone]; rfl)
  exact h2.1

/-- **C9.**  Confirm with an unknown or expired pairing code always fails
with 404 and writes nothing; a successful confirm writes the sender's
pairing at the resolved receiver with the 30-day TTL and deletes the
pairing-code record, so a second confirm of the same code answers 404. -/
theorem C9_confirm_semantics :
    (∀ (store : Store) (cRaw sRaw lRaw : String) (now : Nat),
        normalizePairCode cRaw ≠ "" → normalizeDeviceId sRaw ≠ "" →
        pairCodeReceiver
            (liveGet (store.pairCodes (normalizePairCode cRaw)) now) = "" →
        (pairConfirmPost store cRaw sRaw lRaw now).1 = .notFound ∧
        (pairConfirmPost store cRaw sRaw lRaw now).2 = store) ∧
    (∀ (store : Store) (cRaw sRaw lRaw : String) (now : Nat),
        normalizePairCode cRaw ≠ "" → normalizeDeviceId sRaw ≠ "" →
        pairCodeReceiver
            (liveGet (store.pairCodes (normalizePairCode cRaw)) now) ≠ "" →
        (pairConfirmPost store cRaw sRaw lRaw now).2.pairSender
            (normalizeDeviceId sRaw)
          = some (.record
              { receiverDeviceId := some (pairCodeReceiver
                  (liveGet (store.pairCodes (normalizePairCode cRaw)) now))
                receiverDeviceLabel :=
                  if pairCodeLabel
                      (liveGet (store.pairCodes (normalizePairCode cRaw)) now)
                      = ""
                  then none
                  else some (pairCodeLabel
                    (liveGet (store.pairCodes (normalizePairCode cRaw)) now))
                senderDeviceLabel :=
                  if normalizeDeviceLabel lRaw = "" then none
                  else some (normalizeDeviceLabel lRaw) },
              now + PAIRING_TTL_SECONDS) ∧
        (pairConfirmPost store cRaw sRaw lRaw now).2.pairCodes
            (normalizePairCode cRaw) = none) ∧
    (∀ (store : Store) (cRaw sRaw sRaw2 lRaw lRaw2 : String) (now now2 : Nat),
        normalizePairCode cRaw ≠ "" → normalizeDeviceId sRaw ≠ "" →
        normalizeDeviceId sRaw2 ≠ "" →
        pairCodeReceiver
            (liveGet (store.pairCodes (normalizePairCode cRaw)) now) ≠ "" →
        (pairConfirmPost (pairConfirmPost store cRaw sRaw lRaw now).2
            cRaw sRaw2 lRaw2 now2).1 = .notFound) :=
  ⟨pairConfirm_notFound,
   fun store cRaw sRaw lRaw now hpc hs hres =>
     ⟨(pairConfirm_success store cRaw sRaw lRaw now hpc hs hres).2.1,
      (pairConfirm_success store cRaw sRaw lRaw now hpc hs hres).2.2⟩,
   pairConfirm_at_most_once⟩

/-- **C9, witness**: an unknown code 404s and writes nothing; the stored
code `A2B3C4` confirms once (pairing written for 30 days, code deleted) and
404s the second time. -/
theorem C9_witness :
    ((pairConfirmPost emptyStore "A2B3C4" "sender-0001" "" 0).1
        = .notFound ∧
      (pairConfirmPost emptyStore "A2B3C4" "sender-0001" "" 0).2
        = emptyStore) ∧
    ((pairConfirmPost c9Store "A2B3C4" "sender-0001" "" 0).2.pairSender
        "sender-0001"
      = some (.record
          { receiverDeviceId := some "receiver-01"
            receiverDeviceLabel := none
            senderDeviceLabel := none }, PAIRING_TTL_SECONDS) ∧
     (pairConfirmPost c9Store "A2B3C4" "sender-0001" "" 0).2.pairCodes
        "A2B3C4" = none) ∧
    (pairConfirmPost (pairConfirmPost c9Store "A2B3C4" "sender-0001" "" 0).2
        "A2B3C4" "sender-0002" "" 100).1 = .notFound :=
  ⟨C9_confirm_semantics.1 emptyStore "A2B3C4" "sender-0001" "" 0
      (by decide) (by decide) (by decide),
   C9_confirm_semantics.2.1 c9Store "A2B3C4" "sender-0001" "" 0
      (by decide) (by decide) (by decide),
   C9_confirm_semantics.2.2 c9Store "A2B3C4" "sender-0001" "sender-0002"
      "" "" 0 100 (by decide) (by decide) (by decide) (by decide)⟩

/-- One limiter check against a live window counter: the count increments,
the window expiry is kept, and the reset is the remaining TTL. -/
theorem rl_step (k E t limit window : Nat) (ht : t < E) :
    rateLimitOrThrow (some ⟨k, E⟩) t limit window
      = (if k + 1 > limit then .limited (E - t)
         else .ok (limit - (k + 1)) (E - t), some ⟨k + 1, E⟩) := by
  unfold rateLimitOrThrow
  simp only [if_pos ht]
  have h1 : ((E : Int) - (t : Int)) > 0 := by omega
  rw [if_pos h1]
  have h2 : ((E : Int) - (t : Int)).toNat = E - t := by omega
  rw [h2]
  split_ifs with h <;> rfl

/-- The first check of a window restarts the counter at 1 and arms the
window TTL. -/
theorem rl_first (t0 limit window : Nat) (hl : 0 < limit) (hw : 0 < window) :
    rateLimitOrThrow none t0 limit window
      = (.ok (limit - 1) window, some ⟨1, t0 + window⟩) := by
  unfold rateLimitOrThrow
  rw [if_neg (show ¬ (0 + 1 > limit) by omega)]
  have h1 : ((↑(t0 + window) : Int) - ↑t0) = (window : Int) := by
    push_cast
    ring
  simp only [h1]
  rw [if_pos (show ((window : Int) > 0) by exact_mod_cast hw)]
  simp

/-- Running further checks against a live window produces exactly the
expected outcomes and leaves the counter at `k + ts.length`. -/
theorem rlRun_inv (limit window : Nat) :
    ∀ (ts : List Nat) (k E : Nat), (∀ t ∈ ts, t < E) →
      rateLimitRun (some ⟨k, E⟩) ts limit window
        = (rlExpected limit E k ts, some ⟨k + ts.length, E⟩) := by
  intro ts
  induction ts with
  | nil => intro k E _; simp [rateLimitRun, rlExpected]
  | cons t ts ih =>
    intro k E hin
    rw [rateLimitRun, rl_step k E t limit window (hin t (by simp))]
    rw [ih (k + 1) E (fun x hx => hin x (by simp [hx]))]
    rw [rlExpected]
    simp only [List.length_cons]
    rw [show k + (ts.length + 1) = k + 1 + ts.length from by omega]

/-- The `i`-th expected outcome, element-wise. -/
theorem rlExpected_get? (limit E : Nat) :
    ∀ (ts : List Nat) (k i : Nat) (t : Nat), ts.get? i = some t →
      (rlExpected limit E k ts).get? i
        = some (if k + i + 1 > limit then RLOut.limited (E - t)
                else RLOut.ok (limit - (k + i + 1)) (E - t)) := by
  intro ts
  induction ts with
  | nil => intro k i t h; simp at h
  | cons a ts ih =>
    intro k i t h
    cases i with
    | zero =>
      rw [List.get?_cons_zero] at h
      injection h with h
      subst h
      rw [rlExpected, List.get?_cons_zero]
    | succ j =>
      rw [List.get?_cons_succ] at h
      rw [rlExpected, List.get?_cons_succ]
      rw [show k + (j + 1) + 1 = k + 1 + j + 1 from by omega]
      exact ih (k + 1) j t h

/-- **C5.**  Fixed-window limit at `(share, ip, 20, 60s)`: for 21 calls
within one 60-second window (the first at `t0`, the rest before
`t0 + 60`), calls 1 through 20 are allowed, and the 21st fails rate-limited
with a reset of the window's remaining TTL — positive and at most 60 — which
the share route returns as HTTP 429 with that value in `Retry-After`. -/
theorem C5_share_rate_limit (t0 : Nat) (rest : List Nat)
    (hlen : rest.length = 20)
    (hin : ∀ t ∈ rest, t0 ≤ t ∧ t < t0 + 60) :
    ((rateLimitRun none (t0 :: rest) 20 60).1).get? 0
        = some (.ok 19 60) ∧
    (∀ j t, j < 19 → rest.get? j = some t →
      ((rateLimitRun none (t0 :: rest) 20 60).1).get? (j + 1)
        = some (.ok (20 - (j + 2)) (t0 + 60 - t))) ∧
    (∀ t, rest.get? 19 = some t →
      ((rateLimitRun none (t0 :: rest) 20 60).1).get? 20
          = some (.limited (t0 + 60 - t)) ∧
        0 < t0 + 60 - t ∧ t0 + 60 - t ≤ 60 ∧
        shareRateLimited429 (t0 + 60 - t) = (429, t0 + 60 - t)) := by
  have hrun : rateLimitRun none (t0 :: rest) 20 60
      = (RLOut.ok 19 60 :: rlExpected 20 (t0 + 60) 1 rest,
         some ⟨1 + rest.length, t0 + 60⟩) := by
    rw [rateLimitRun, rl_first t0 20 60 (by omega) (by omega)]
    rw [rlRun_inv 20 60 rest 1 (t0 + 60) (fun x hx => (hin x hx).2)]
  refine ⟨by rw [hrun]; rfl, ?_, ?_⟩
  · intro j t hj ht
    rw [hrun, List.get?_cons_succ,
      rlExpected_get? 20 (t0 + 60) rest 1 j t ht]
    rw [if_neg (by omega)]
    have harith : 20 - (1 + j + 1) = 20 - (j + 2) := by omega
    rw [harith]
  · intro t ht
    have hmem := List.get?_mem ht
    obtain ⟨h1, h2⟩ := hin t hmem
    refine ⟨?_, by omega, by omega, rfl⟩
    rw [hrun, List.get?_cons_succ,
      rlExpected_get? 20 (t0 + 60) rest 1 19 t ht]
    rw [if_pos (by omega)]

/-- **C5, witness** at 21 calls all within the same second. -/
theorem C5_witness :
    ((rateLimitRun none (100 :: List.replicate 20 100) 20 60).1).get? 0
        = some (.ok 19 60) ∧
    ((rateLimitRun none (100 :: List.replicate 20 100) 20 60).1).get? 6
        = some (.ok 13 60) ∧
    ((rateLimitRun none (100 :: List.replicate 20 100) 20 60).1).get? 20
        = some (.limited 60) ∧
    shareRateLimited429 60 = (429, 60) := by
  have h := C5_share_rate_limit 100 (List.replicate 20 100) (by decide)
    (by decide)
  refine ⟨h.1, ?_, ?_, rfl⟩
  · have h6 := h.2.1 5 100 (by omega) (by decide)
    simpa using h6
  · have h21 := h.2.2 100 (by decide)
    simpa using h21.1

/-- Normalization at two different times both reject an item or both accept
it, with the same response projection and message key (only the stored
`createdAt` fallback differs). -/
theorem normalize_shift (m : NearbyMsg) (now now' : Nat) :
    (normalizeNearbyPayload m now = none ∧
      normalizeNearbyPayload m now' = none) ∨
    (∃ v v', normalizeNearbyPayload m now = some v ∧
      normalizeNearbyPayload m now' = some v' ∧
      pollItemOf v' = pollItemOf v ∧ msgKey v' = msgKey v) := by
  simp only [normalizeNearbyPayload]
  by_cases h : ((normLinks m).isEmpty && decide (normText m = "")) = true
  · left
    rw [if_pos h, if_pos h]
    exact ⟨rfl, rfl⟩
  · right
    rw [if_neg h, if_neg h]
    exact ⟨_, _, rfl, rfl, rfl, rfl⟩

/-- Parsing the same stored value at two times yields pointwise-matching
items (same response item and message key). -/
theorem pollParseItems_shift (raw : RawMailbox) (now now' : Nat) :
    List.Forall₂ (fun a b => pollItemOf b = pollItemOf a ∧ msgKey b = msgKey a)
      (pollParseItems raw now) (pollParseItems raw now') := by
  cases raw with
  | invalid => simp [pollParseItems]
  | single m =>
    simp only [pollParseItems]
    rcases normalize_shift m now now' with ⟨h1, h2⟩ | ⟨v, v', h1, h2, h3, h4⟩
    · simp [h1, h2]
    · simp [h1, h2]
      exact ⟨h3, h4⟩
  | queue ver items =>
    simp only [pollParseItems]
    induction items with
    | nil => simp
    | cons a l ih =>
      simp only [List.filterMap_cons]
      rcases normalize_shift a now now' with ⟨h1, h2⟩ | ⟨v, v', h1, h2, h3, h4⟩
      · rw [h1, h2]; exact ih
      · rw [h1, h2]; exact List.Forall₂.cons ⟨h3, h4⟩ ih

/-- Removing a message id that occurs once (keys distinct) shortens the
queue by exactly one. -/
theorem filter_remove_one {l : List NearbyMsg} {mid : String}
    (hnd : (l.map msgKey).Nodup) (m0 : NearbyMsg) (hm0 : m0 ∈ l)
    (hkey : msgKey m0 = mid) :
    ((l.filter fun m => msgKey m ≠ mid).length) + 1 = l.length := by
  induction l with
  | nil => cases hm0
  | cons a l ih =>
    rw [List.map_cons, List.nodup_cons] at hnd
    by_cases ha : msgKey a = mid
    · have hrest : ∀ m ∈ l, msgKey m ≠ mid := by
        intro m hm hc
        exact hnd.1 (by rw [ha, ← hc]; exact List.mem_map_of_mem msgKey hm)
      rw [List.filter_cons, if_neg (by simp [ha])]
      rw [List.filter_eq_self.mpr (fun m hm => by simp [hrest m hm])]
      simp
    · rcases hm0 with _ | hm0'
      · exact absurd hkey ha
      rename_i hm0'
      rw [List.filter_cons]
      rw [if_pos (by simp [ha])]
      simp only [List.length_cons]
      rw [← ih hnd.2 hm0']
    

/-- Poll of a queue whose first item carries a message id returns that item
and leaves the store untouched. -/
theorem poll_peek (store : Store) (rRaw : String) (now : Nat)
    (raw : RawMailbox) (exp : Nat)
    (hs : normalizeDeviceId rRaw ≠ "")
    (hmb : store.nearby (normalizeDeviceId rRaw) = some (raw, exp))
    (hlive : now < exp)
    (cur : NearbyMsg) (rest : List NearbyMsg)
    (hitems : pollParseItems raw now = cur :: rest)
    (hmid : msgKey cur ≠ "") :
    pollGet store rRaw now = (.found (pollItemOf cur), store) := by
  simp only [pollGet, if_neg hs]
  have hg : liveGet (store.nearby (normalizeDeviceId rRaw)) now = some raw := by
    rw [hmb]
    simp [liveGet, hlive]
  simp only [hg, hitems, if_neg hmid]

/-- A later poll (before expiry, no ack in between) returns the same item
and still leaves the store untouched. -/
theorem poll_repeat (store : Store) (rRaw : String) (now now' : Nat)
    (raw : RawMailbox) (exp : Nat)
    (hs : normalizeDeviceId rRaw ≠ "")
    (hmb : store.nearby (normalizeDeviceId rRaw) = some (raw, exp))
    (hlive : now < exp) (hlive' : now' < exp)
    (cur : NearbyMsg) (rest : List NearbyMsg)
    (hitems : pollParseItems raw now = cur :: rest)
    (hmid : msgKey cur ≠ "") :
    pollGet store rRaw now' = (.found (pollItemOf cur), store) := by
  have hsh := pollParseItems_shift raw now now'
  rw [hitems] at hsh
  rw [List.forall₂_cons_left_iff] at hsh
  obtain ⟨cur', rest', ⟨hitem, hkey⟩, hrest, hitems'⟩ := hsh
  have := poll_peek store rRaw now' raw exp hs hmb hlive' cur' rest' hitems'
    (by rw [hkey]; exact hmid)
  rw [this, hitem]

/-- Poll of a queue whose first item lacks a message id returns it but
consumes it immediately, preserving the key's expiry for the remainder. -/
theorem poll_legacy (store : Store) (rRaw : String) (now : Nat)
    (raw : RawMailbox) (exp : Nat)
    (hs : normalizeDeviceId rRaw ≠ "")
    (hmb : store.nearby (normalizeDeviceId rRaw) = some (raw, exp))
    (hlive : now < exp)
    (cur : NearbyMsg) (rest : List NearbyMsg)
    (hitems : pollParseItems raw now = cur :: rest)
    (hmid : msgKey cur = "") :
    (pollGet store rRaw now).1 = .found (pollItemOf cur) ∧
    (pollGet store rRaw now).2.nearby (normalizeDeviceId rRaw)
      = (if rest.isEmpty then none
         else some (.queue (some 2) rest, exp)) := by
  simp only [pollGet, if_neg hs]
  have hg : liveGet (store.nearby (normalizeDeviceId rRaw)) now = some raw := by
    rw [hmb]
    simp [liveGet, hlive]
  simp only [hg, hitems, if_pos hmid]
  by_cases hre : rest.isEmpty
  · rw [if_pos hre, if_pos hre]
    exact ⟨trivial, by simp [upd]⟩
  · rw [if_neg hre, if_neg hre]
    refine ⟨trivial, ?_⟩
    have httl : liveTtl (store.nearby (normalizeDeviceId rRaw)) now
        = (exp : Int) - now := by
      rw [hmb]
      rfl
    rw [httl]
    rw [if_pos (by omega)]
    have : ((exp : Int) - now).toNat = exp - now := by omega
    rw [this]
    have : now + (exp - now) = exp := by omega
    rw [this]
    simp [upd]

/-- Ack against an absent or expired mailbox reports `consumed := false`
without error or mutation. -/
theorem ack_absent (store : Store) (rRaw mRaw : String) (now : Nat)
    (hs : normalizeDeviceId rRaw ≠ "")
    (hm : normalizeMessageId mRaw ≠ "")
    (hnone : liveGet (store.nearby (normalizeDeviceId rRaw)) now = none) :
    ackPost store rRaw mRaw now = (.ok false, store) := by
  simp only [ackPost]
  rw [if_neg (by simp [hs, hm])]
  simp only [hnone]

/-- Ack whose message id matches no queued entry reports
`consumed := false` and leaves the store untouched. -/
theorem ack_no_match (store : Store) (rRaw mRaw : String) (now : Nat)
    (raw : RawMailbox) (exp : Nat)
    (hs : normalizeDeviceId rRaw ≠ "")
    (hm : normalizeMessageId mRaw ≠ "")
    (hmb : store.nearby (normalizeDeviceId rRaw) = some (raw, exp))
    (hlive : now < exp)
    (hall : ∀ m ∈ ackParseItems raw, msgKey m ≠ normalizeMessageId mRaw) :
    ackPost store rRaw mRaw now = (.ok false, store) := by
  simp only [ackPost]
  rw [if_neg (by simp [hs, hm])]
  have hg : liveGet (store.nearby (normalizeDeviceId rRaw)) now = some raw := by
    rw [hmb]
    simp [liveGet, hlive]
  simp only [hg]
  rw [List.filter_eq_self.mpr (fun m hm2 => by simp [hall m hm2])]
  rw [if_neg (by omega)]

/-- Ack whose message id matches exactly one entry removes only that entry,
deleting the key when the queue empties and otherwise rewriting the
remainder with the key's remaining TTL. -/
theorem ack_match (store : Store) (rRaw mRaw : String) (now : Nat)
    (raw : RawMailbox) (exp : Nat)
    (hs : normalizeDeviceId rRaw ≠ "")
    (hm : normalizeMessageId mRaw ≠ "")
    (hmb : store.nearby (normalizeDeviceId rRaw) = some (raw, exp))
    (hlive : now < exp)
    (hnd : ((ackParseItems raw).map msgKey).Nodup)
    (m0 : NearbyMsg) (hm0 : m0 ∈ ackParseItems raw)
    (hkey : msgKey m0 = normalizeMessageId mRaw) :
    (ackPost store rRaw mRaw now).1 = .ok true ∧
    ((ackParseItems raw).filter
        (fun m => msgKey m ≠ normalizeMessageId mRaw)).length + 1
      = (ackParseItems raw).length ∧
    (ackPost store rRaw mRaw now).2.nearby (normalizeDeviceId rRaw)
      = (if ((ackParseItems raw).filter
            (fun m => msgKey m ≠ normalizeMessageId mRaw)).isEmpty then none
         else some (.queue (some 2) ((ackParseItems raw).filter
            (fun m => msgKey m ≠ normalizeMessageId mRaw)), exp)) := by
  have hlen := filter_remove_one hnd m0 hm0 hkey
  have hg : liveGet (store.nearby (normalizeDeviceId rRaw)) now
      = some raw := by
    rw [hmb]
    simp [liveGet, hlive]
  refine ⟨?_, hlen, ?_⟩
  · simp only [ackPost]
    rw [if_neg (by simp [hs, hm])]
    simp only [hg]
    rw [if_pos (by omega)]
    by_cases hre : ((ackParseItems raw).filter
        (fun m => msgKey m ≠ normalizeMessageId mRaw)).isEmpty
    · rw [if_pos hre]
    · rw [if_neg hre]
  · simp only [ackPost]
    rw [if_neg (by simp [hs, hm])]
    simp only [hg]
    rw [if_pos (by omega)]
    by_cases hre : ((ackParseItems raw).filter
        (fun m => msgKey m ≠ normalizeMessageId mRaw)).isEmpty
    · rw [if_pos hre, if_pos hre]
      simp [upd]
    · rw [if_neg hre, if_neg hre]
      have httl : liveTtl (store.nearby (normalizeDeviceId rRaw)) now
          = (exp : Int) - now := by
        rw [hmb]
        rfl
      rw [httl]
      rw [if_pos (by omega)]
      have e1 : ((exp : Int) - now).toNat = exp - now := by omega
      rw [e1]
      have e2 : now + (exp - now) = exp := by omega
      rw [e2]
      simp [upd]

/-- **C6.**  Mailbox semantics: (1) polls before any ack return the first
queued item without removing it, repeatedly and identically, when that item
carries a message id; (2) a first item without a message id — the legacy
shape — is consumed on its first poll, the key keeping its expiry for any
remainder; (3) an ack against an absent mailbox and (4) an ack whose message
id matches no queued entry both answer `consumed := false` without error or
mutation; (5) an ack that matches (message ids distinct) removes exactly
that entry, deleting the key when the queue empties and otherwise rewriting
the remaining queue with the key's remaining TTL. -/
theorem C6_mailbox_semantics :
    (∀ (store : Store) (rRaw : String) (now now' : Nat) (raw : RawMailbox)
        (exp : Nat), normalizeDeviceId rRaw ≠ "" →
        store.nearby (normalizeDeviceId rRaw) = some (raw, exp) →
        now < exp → now' < exp →
        ∀ (cur : NearbyMsg) (rest : List NearbyMsg),
        pollParseItems raw now = cur :: rest → msgKey cur ≠ "" →
        pollGet store rRaw now = (.found (pollItemOf cur), store) ∧
        pollGet store rRaw now' = (.found (pollItemOf cur), store)) ∧
    (∀ (store : Store) (rRaw : String) (now : Nat) (raw : RawMailbox)
        (exp : Nat), normalizeDeviceId rRaw ≠ "" →
        store.nearby (normalizeDeviceId rRaw) = some (raw, exp) →
        now < exp →
        ∀ (cur : NearbyMsg) (rest : List NearbyMsg),
        pollParseItems raw now = cur :: rest → msgKey cur = "" →
        (pollGet store rRaw now).1 = .found (pollItemOf cur) ∧
        (pollGet store rRaw now).2.nearby (normalizeDeviceId rRaw)
          = (if rest.isEmpty then none
             else some (.queue (some 2) rest, exp))) ∧
    (∀ (store : Store) (rRaw mRaw : String) (now : Nat),
        normalizeDeviceId rRaw ≠ "" → normalizeMessageId mRaw ≠ "" →
        liveGet (store.nearby (normalizeDeviceId rRaw)) now = none →
        ackPost store rRaw mRaw now = (.ok false, store)) ∧
    (∀ (store : Store) (rRaw mRaw : String) (now : Nat) (raw : RawMailbox)
        (exp : Nat), normalizeDeviceId rRaw ≠ "" →
        normalizeMessageId mRaw ≠ "" →
        store.nearby (normalizeDeviceId rRaw) = some (raw, exp) →
        now < exp →
        (∀ m ∈ ackParseItems raw, msgKey m ≠ normalizeMessageId mRaw) →
        ackPost store rRaw mRaw now = (.ok false, store)) ∧
    (∀ (store : Store) (rRaw mRaw : String) (now : Nat) (raw : RawMailbox)
        (exp : Nat), normalizeDeviceId rRaw ≠ "" →
        normalizeMessageId mRaw ≠ "" →
        store.nearby (normalizeDeviceId rRaw) = some (raw, exp) →
        now < exp →
        ((ackParseItems raw).map msgKey).Nodup →
        ∀ m0 ∈ ackParseItems raw, msgKey m0 = normalizeMessageId mRaw →
        (ackPost store rRaw mRaw now).1 = .ok true ∧
        ((ackParseItems raw).filter
            (fun m => msgKey m ≠ normalizeMessageId mRaw)).length + 1
          = (ackParseItems raw).length ∧
        (ackPost store rRaw mRaw now).2.nearby (normalizeDeviceId rRaw)
          = (if ((ackParseItems raw).filter
                (fun m => msgKey m ≠ normalizeMessageId mRaw)).isEmpty
             then none
             else some (.queue (some 2) ((ackParseItems raw).filter
                (fun m => msgKey m ≠ normalizeMessageId mRaw)), exp))) :=
  ⟨fun store rRaw now now' raw exp hs hmb hlive hlive' cur rest hitems hmid =>
     ⟨poll_peek store rRaw now raw exp hs hmb hlive cur rest hitems hmid,
      poll_repeat store rRaw now now' raw exp hs hmb hlive hlive' cur rest
        hitems hmid⟩,
   fun store rRaw now raw exp hs hmb hlive cur rest hitems hmid =>
     poll_legacy store rRaw now raw exp hs hmb hlive cur rest hitems hmid,
   ack_absent,
   ack_no_match,
   fun store rRaw mRaw now raw exp hs hm hmb hlive hnd m0 hm0 hkey =>
     ack_match store rRaw mRaw now raw exp hs hm hmb hlive hnd m0 hm0 hkey⟩

/-- **C6, witness**: with a two-message queue pending for `receiver-01`,
polls at two times return the first message untouched; a legacy single
message is consumed on first poll; acks against an empty mailbox or with a
foreign id consume nothing; the matching ack removes exactly the first
message and keeps the expiry. -/
theorem C6_witness :
    (pollGet c6Store "receiver-01" 100
        = (.found ⟨some "mmmm0001", some "111", ["https://one.example"],
            none, none⟩, c6Store) ∧
      pollGet c6Store "receiver-01" 200
        = (.found ⟨some "mmmm0001", some "111", ["https://one.example"],
            none, none⟩, c6Store)) ∧
    ((pollGet c6LegacyStore "receiver-01" 100).1
        = .found ⟨none, some "333", ["https://three.example"], none, none⟩ ∧
      (pollGet c6LegacyStore "receiver-01" 100).2.nearby "receiver-01"
        = none) ∧
    ackPost emptyStore "receiver-01" "mmmm0001" 0 = (.ok false, emptyStore) ∧
    ackPost c6Store "receiver-01" "zzzz9999" 100 = (.ok false, c6Store) ∧
    ((ackPost c6Store "receiver-01" "mmmm0001" 100).1 = .ok true ∧
      (ackPost c6Store "receiver-01" "mmmm0001" 100).2.nearby "receiver-01"
        = some (.queue (some 2) [c6m2], 5000)) :=
  ⟨C6_mailbox_semantics.1 c6Store "receiver-01" 100 200 c6Queue 5000
      (by decide) rfl (by omega) (by omega) c6m1 [c6m2] rfl (by decide),
   (C6_mailbox_semantics.2.1 c6LegacyStore "receiver-01" 100
      (.single c6Legacy) 5000 (by decide) rfl (by omega) c6Legacy [] rfl
      (by decide)),
   C6_mailbox_semantics.2.2.1 emptyStore "receiver-01" "mmmm0001" 0
      (by decide) (by decide) rfl,
   C6_mailbox_semantics.2.2.2.1 c6Store "receiver-01" "zzzz9999" 100 c6Queue
      5000 (by decide) (by decide) rfl (by omega) (by decide),
   (fun h => ⟨h.1, h.2.2⟩)
     (C6_mailbox_semantics.2.2.2.2 c6Store "receiver-01" "mmmm0001" 100
        c6Queue 5000 (by decide) (by decide) rfl (by omega) (by decide)
        c6m1 (by decide) (by decide))⟩

/-- `dropWhile` is the identity when no element satisfies the predicate. -/
theorem dropWhile_of_all_false {p : Char → Bool} :
    ∀ {l : List Char}, (∀ c ∈ l, p c = false) → l.dropWhile p = l := by
  intro l h
  cases l with
  | nil => rfl
  | cons a t =>
    rw [List.dropWhile_cons_of_neg]
    simp [h a (by simp)]

/-- Identifier characters are not whitespace. -/
theorem isIdChar_not_ws {c : Char} (h : isIdChar c = true) : isWs c = false := by
  simp only [isIdChar, Bool.or_eq_true, Bool.and_eq_true,
    decide_eq_true_eq] at h
  simp only [isWs, Bool.or_eq_false_iff, decide_eq_false_iff_not]
  omega

/-- Trimming a string of identifier characters changes nothing. -/
theorem jsTrim_of_idChars {s : String}
    (h : ∀ c ∈ s.data, isIdChar c = true) : jsTrim s = s := by
  obtain ⟨l⟩ := s
  simp only [jsTrim]
  have h1 : l.dropWhile isWs = l :=
    dropWhile_of_all_false fun c hc => isIdChar_not_ws (h c hc)
  rw [h1]
  have h2 : l.reverse.dropWhile isWs = l.reverse :=
    dropWhile_of_all_false fun c hc =>
      isIdChar_not_ws (h c (List.mem_reverse.mp hc))
  rw [h2, List.reverse_reverse]

/-- What a matched identifier pattern guarantees. -/
theorem matchesIdPattern_facts {lo hi : Nat} {s : String}
    (h : matchesIdPattern lo hi s = true) :
    (∀ c ∈ s.data, isIdChar c = true) ∧ lo ≤ s.data.length := by
  simp only [matchesIdPattern, Bool.and_eq_true, decide_eq_true_eq,
    List.all_eq_true] at h
  exact ⟨h.2, h.1.1⟩

/-- A nonempty normalized device id is a fixpoint of the normalizer. -/
theorem normalizeDeviceId_fix {raw : String}
    (h : normalizeDeviceId raw ≠ "") :
    normalizeDeviceId (normalizeDeviceId raw) = normalizeDeviceId raw := by
  by_cases h1 : jsTrim raw = ""
  · exact absurd (by simp [normalizeDeviceId, h1]) h
  by_cases h2 : matchesIdPattern 8 64 (jsTrim raw) = true
  · have hval : normalizeDeviceId raw = jsTrim raw := by
      simp [normalizeDeviceId, h1, h2]
    rw [hval]
    have hfix : jsTrim (jsTrim raw) = jsTrim raw :=
      jsTrim_of_idChars (matchesIdPattern_facts h2).1
    simp [normalizeDeviceId, hfix, h1, h2]
  · exact absurd (by simp [normalizeDeviceId, h1, h2]) h

/-- Members of an upsert come from the accumulator or carry the upserted
id. -/
theorem upsert_mem_or {acc : List NRoomMember} {m x : NRoomMember}
    (h : x ∈ upsertByDeviceId acc m) : x ∈ acc ∨ x.deviceId = m.deviceId := by
  unfold upsertByDeviceId at h
  split at h
  · rw [List.mem_map] at h
    obtain ⟨y, hy, hyx⟩ := h
    by_cases hid : y.deviceId = m.deviceId
    · rw [if_pos hid] at hyx
      right
      rw [← hyx]
    · rw [if_neg hid] at hyx
      left
      rw [← hyx]
      exact hy
  · rw [List.mem_append] at h
    rcases h with h | h
    · left; exact h
    · right
      simp at h
      rw [h]

/-- Upserting an id already present leaves the id list unchanged. -/
theorem upsert_ids_of_mem {acc : List NRoomMember} {m : NRoomMember}
    (h : acc.any (fun x => x.deviceId = m.deviceId) = true) :
    memberIds (upsertByDeviceId acc m) = memberIds acc := by
  unfold upsertByDeviceId
  rw [if_pos h]
  unfold memberIds
  rw [List.map_map]
  apply List.map_congr_left
  intro x _
  by_cases hid : x.deviceId = m.deviceId
  · simp [hid]
  · simp [hid]

/-- Upserting a new id appends it to the id list. -/
theorem upsert_ids_of_not_mem {acc : List NRoomMember} {m : NRoomMember}
    (h : acc.any (fun x => x.deviceId = m.deviceId) = false) :
    memberIds (upsertByDeviceId acc m) = memberIds acc ++ [m.deviceId] := by
  unfold upsertByDeviceId
  rw [if_neg (by simp [h])]
  unfold memberIds
  rw [List.map_append]
  rfl

/-- The upserted id is present afterwards. -/
theorem upsert_ids_mem {acc : List NRoomMember} (m : NRoomMember) :
    m.deviceId ∈ memberIds (upsertByDeviceId acc m) := by
  by_cases h : acc.any (fun x => x.deviceId = m.deviceId) = true
  · rw [upsert_ids_of_mem h]
    simp only [List.any_eq_true, decide_eq_true_eq] at h
    obtain ⟨x, hx, hid⟩ := h
    rw [← hid]
    exact List.mem_map_of_mem _ hx
  · rw [upsert_ids_of_not_mem (by simpa using h)]
    simp

/-- Upserting preserves distinctness of the id list. -/
theorem upsert_nodup {acc : List NRoomMember} {m : NRoomMember}
    (hnd : (memberIds acc).Nodup) :
    (memberIds (upsertByDeviceId acc m)).Nodup := by
  by_cases h : acc.any (fun x => x.deviceId = m.deviceId) = true
  · rw [upsert_ids_of_mem h]
    exact hnd
  · rw [upsert_ids_of_not_mem (by simpa using h)]
    rw [List.nodup_append]
    refine ⟨hnd, List.nodup_singleton _, ?_⟩
    intro a ha hb
    simp only [List.mem_singleton] at hb
    subst hb
    simp only [Bool.not_eq_true, List.any_eq_false, decide_eq_false_iff_not]
      at h
    unfold memberIds at ha
    rw [List.mem_map] at ha
    obtain ⟨x, hx, hxa⟩ := ha
    exact h x hx hxa

/-- The fold step on a valid item is an upsert of its normalized member. -/
theorem normalizeMemberStep_else (fx : Option Nat) (acc : List NRoomMember)
    (item : RoomMember)
    (hne : normalizeDeviceId (item.deviceId.getD "") ≠ "") :
    normalizeMemberStep fx acc item
      = upsertByDeviceId acc (stepMember fx item) := by
  unfold normalizeMemberStep
  rw [if_neg hne]

/-- The member normalization yields valid, distinct device ids. -/
theorem normalizeMembers_invariant (fx : Option Nat) :
    ∀ (input : List RoomMember) (acc : List NRoomMember),
      (∀ x ∈ acc, memberIdOk x) → (memberIds acc).Nodup →
      (∀ x ∈ input.foldl (normalizeMemberStep fx) acc, memberIdOk x) ∧
      (memberIds (input.foldl (normalizeMemberStep fx) acc)).Nodup := by
  intro input
  induction input with
  | nil => intro acc h1 h2; exact ⟨h1, h2⟩
  | cons item rest ih =>
    intro acc h1 h2
    rw [List.foldl_cons]
    by_cases hne : normalizeDeviceId (item.deviceId.getD "") = ""
    · have hstep : normalizeMemberStep fx acc item = acc := by
        unfold normalizeMemberStep
        rw [if_pos hne]
      rw [hstep]
      exact ih acc h1 h2
    · rw [normalizeMemberStep_else fx acc item hne]
      apply ih
      · intro x hx
        rcases upsert_mem_or hx with hin | hid
        · exact h1 x hin
        · have hsm : (stepMember fx item).deviceId
              = normalizeDeviceId (item.deviceId.getD "") := rfl
          constructor
          · rw [hid, hsm]
            exact normalizeDeviceId_fix hne
          · rw [hid, hsm]
            exact hne
      · exact upsert_nodup h2

/-- Re-normalizing a stored normalized member list preserves the id list
(the basis of join idempotence). -/
theorem normalizeMembers_stored (fx : Option Nat) :
    ∀ (ms : List NRoomMember) (acc : List NRoomMember),
      (∀ x ∈ ms, memberIdOk x) → (memberIds ms).Nodup →
      (∀ x ∈ ms, x.deviceId ∉ memberIds acc) →
      memberIds ((ms.map nMemberToStored).foldl (normalizeMemberStep fx) acc)
        = memberIds acc ++ memberIds ms := by
  intro ms
  induction ms with
  | nil => intro acc _ _ _; simp [memberIds]
  | cons m rest ih =>
    intro acc hok hnd hdisj
    rw [List.map_cons, List.foldl_cons]
    have hmok := hok m (by simp)
    have hid : normalizeDeviceId ((nMemberToStored m).deviceId.getD "")
        = m.deviceId := by
      simp only [nMemberToStored, Option.getD_some]
      exact hmok.1
    have hne : normalizeDeviceId ((nMemberToStored m).deviceId.getD "") ≠ "" := by
      rw [hid]
      exact hmok.2
    rw [normalizeMemberStep_else fx acc (nMemberToStored m) hne]
    have hsm : (stepMember fx (nMemberToStored m)).deviceId = m.deviceId := by
      show normalizeDeviceId ((nMemberToStored m).deviceId.getD "") = m.deviceId
      exact hid
    have hndc : m.deviceId ∉ memberIds rest ∧ (memberIds rest).Nodup := by
      unfold memberIds at hnd ⊢
      rw [List.map_cons, List.nodup_cons] at hnd
      exact hnd
    have hnotin : acc.any
        (fun x => x.deviceId = (stepMember fx (nMemberToStored m)).deviceId)
        = false := by
      rw [List.any_eq_false]
      intro x hx
      intro hc
      rw [decide_eq_true_eq] at hc
      apply hdisj m (by simp)
      rw [← hsm, ← hc]
      simp only [memberIds]
      exact List.mem_map_of_mem _ hx
    have hih := ih (upsertByDeviceId acc (stepMember fx (nMemberToStored m)))
      (fun x hx => hok x (by simp [hx]))
      hndc.2
      (by
        intro x hx
        rw [upsert_ids_of_not_mem hnotin, hsm]
        simp only [List.mem_append, List.mem_singleton]
        push_neg
        constructor
        · exact hdisj x (by simp [hx])
        · intro hc
          apply hndc.1
          rw [← hc]
          simp only [memberIds]
          exact List.mem_map_of_mem _ hx)
    rw [hih, upsert_ids_of_not_mem hnotin, hsm]
    simp [memberIds]


/-- The join route's normalization yields valid, distinct ids. -/
theorem joinNormalizeMembers_inv (p : Option (List RoomMember)) (now : Nat) :
    (∀ x ∈ joinNormalizeMembers p now, memberIdOk x) ∧
    (memberIds (joinNormalizeMembers p now)).Nodup := by
  unfold joinNormalizeMembers normalizeMembersWith
  exact normalizeMembers_invariant (some now) (p.getD []) []
    (by intro x hx; cases hx) (by simp [memberIds])

/-- After a join, member ids are valid and distinct and include the
caller. -/
theorem joinedMembers_facts (p : RoomPayload) (d dl : String) (now : Nat)
    (hd : normalizeDeviceId d = d) (hdne : d ≠ "") :
    (∀ x ∈ joinedMembers p d dl now, memberIdOk x) ∧
    (memberIds (joinedMembers p d dl now)).Nodup ∧
    d ∈ memberIds (joinedMembers p d dl now) := by
  obtain ⟨hok0, hnd0⟩ := joinNormalizeMembers_inv p.members now
  by_cases hany : (joinNormalizeMembers p.members now).any
      (fun e => e.deviceId = d) = true
  · have hjm : joinedMembers p d dl now
        = (joinNormalizeMembers p.members now).map fun e =>
            if e.deviceId = d then
              { e with deviceLabel :=
                  if dl ≠ "" then some dl else e.deviceLabel }
            else e := by
      simp only [joinedMembers]
      rw [if_pos hany]
    have hids : memberIds ((joinNormalizeMembers p.members now).map fun e =>
        if e.deviceId = d then
          { e with deviceLabel :=
              if dl ≠ "" then some dl else e.deviceLabel }
        else e) = memberIds (joinNormalizeMembers p.members now) := by
      unfold memberIds
      rw [List.map_map]
      apply List.map_congr_left
      intro x _
      by_cases hid : x.deviceId = d
      · simp [hid]
      · simp [hid]
    rw [hjm, hids]
    refine ⟨?_, hnd0, ?_⟩
    · intro x hx
      rw [List.mem_map] at hx
      obtain ⟨y, hy, hyx⟩ := hx
      have hyok := hok0 y hy
      by_cases hid : y.deviceId = d
      · rw [if_pos hid] at hyx
        rw [← hyx]
        exact ⟨hyok.1, hyok.2⟩
      · rw [if_neg hid] at hyx
        rw [← hyx]
        exact hyok
    · simp only [List.any_eq_true, decide_eq_true_eq] at hany
      obtain ⟨e, he, hed⟩ := hany
      rw [← hed]
      unfold memberIds
      exact List.mem_map_of_mem _ he
  · have hjm : joinedMembers p d dl now
        = (joinNormalizeMembers p.members now) ++
            [{ deviceId := d
               deviceLabel := if dl = "" then none else some dl
               joinedAt := some now }] := by
      simp only [joinedMembers]
      rw [if_neg hany]
    have hids : memberIds ((joinNormalizeMembers p.members now) ++
        [{ deviceId := d
           deviceLabel := if dl = "" then none else some dl
           joinedAt := some now }])
        = memberIds (joinNormalizeMembers p.members now) ++ [d] := by
      unfold memberIds
      rw [List.map_append]
      rfl
    rw [hjm, hids]
    refine ⟨?_, ?_, by simp⟩
    · intro x hx
      rw [List.mem_append] at hx
      rcases hx with hx | hx
      · exact hok0 x hx
      · simp only [List.mem_singleton] at hx
        rw [hx]
        exact ⟨hd, hdne⟩
    · rw [List.nodup_append]
      refine ⟨hnd0, List.nodup_singleton _, ?_⟩
      intro a ha hb
      simp only [List.mem_singleton] at hb
      subst hb
      simp only [Bool.not_eq_true, List.any_eq_false,
        decide_eq_false_iff_not] at hany
      unfold memberIds at ha
      rw [List.mem_map] at ha
      obtain ⟨x, hx, hxa⟩ := ha
      exact hany x hx hxa

/-- A second join by the same device does not change the member count. -/
theorem joined_length_stable (p : RoomPayload) (d dl1 dl2 : String)
    (now now2 : Nat) (hd : normalizeDeviceId d = d) (hdne : d ≠ "") :
    (joinedMembers (joinedPayload p d dl1 now) d dl2 now2).length
      = (joinedMembers p d dl1 now).length := by
  obtain ⟨hok1, hnd1, hmem1⟩ := joinedMembers_facts p d dl1 now hd hdne
  have hmembers : (joinedPayload p d dl1 now).members
      = some ((joinedMembers p d dl1 now).map nMemberToStored) := rfl
  have hids2 : memberIds (joinNormalizeMembers
      (joinedPayload p d dl1 now).members now2)
      = memberIds (joinedMembers p d dl1 now) := by
    rw [hmembers]
    unfold joinNormalizeMembers normalizeMembersWith
    simp only [Option.getD_some]
    have := normalizeMembers_stored (some now2) (joinedMembers p d dl1 now)
      [] hok1 hnd1 (by intro x _; simp [memberIds])
    simpa [memberIds] using this
  have hlen2 : (joinNormalizeMembers (joinedPayload p d dl1 now).members
      now2).length = (joinedMembers p d dl1 now).length := by
    have := congrArg List.length hids2
    simpa only [memberIds, List.length_map] using this
  have hany2 : (joinNormalizeMembers (joinedPayload p d dl1 now).members
      now2).any (fun e => e.deviceId = d) = true := by
    rw [List.any_eq_true]
    have hmm : d ∈ memberIds (joinNormalizeMembers
        (joinedPayload p d dl1 now).members now2) := by
      rw [hids2]; exact hmem1
    unfold memberIds at hmm
    rw [List.mem_map] at hmm
    obtain ⟨x, hx, hxd⟩ := hmm
    exact ⟨x, hx, by simp [hxd]⟩
  have hjm2 : joinedMembers (joinedPayload p d dl1 now) d dl2 now2
      = (joinNormalizeMembers (joinedPayload p d dl1 now).members now2).map
          fun e =>
            if e.deviceId = d then
              { e with deviceLabel :=
                  if dl2 ≠ "" then some dl2 else e.deviceLabel }
            else e := by
    simp only [joinedMembers]
    rw [if_pos hany2]
  rw [hjm2, List.length_map, hlen2]


/-- Join of an absent or expired room answers 404 without mutation. -/
theorem roomJoin_notFound (store : Store) (rRaw dRaw dlRaw : String)
    (now : Nat) (hrc : normalizeRoomCode rRaw ≠ "")
    (hd : normalizeDeviceId dRaw ≠ "")
    (hnone : liveGet (store.rooms (normalizeRoomCode rRaw)) now = none) :
    roomJoinPost store rRaw dRaw dlRaw now = (.notFound, store) := by
  simp only [roomJoinPost]
  rw [if_neg (by simp [hrc, hd])]
  simp only [hnone]

/-- A join against a live room rewrites the record with the upserted
members, preserving the absolute expiry. -/
theorem roomJoin_ok (store : Store) (rRaw dRaw dlRaw : String) (now : Nat)
    (p : RoomPayload) (exp : Nat)
    (hrc : normalizeRoomCode rRaw ≠ "") (hd : normalizeDeviceId dRaw ≠ "")
    (hmb : store.rooms (normalizeRoomCode rRaw) = some (.record p, exp))
    (hlive : now < exp) :
    roomJoinPost store rRaw dRaw dlRaw now
      = (.ok (normalizeRoomCode rRaw) (exp - now)
          (joinedMembers p (normalizeDeviceId dRaw)
            (normalizeDeviceLabel dlRaw) now).length,
         { store with rooms := (upd store.rooms (normalizeRoomCode rRaw)
             (some (.record (joinedPayload p (normalizeDeviceId dRaw)
               (normalizeDeviceLabel dlRaw) now), exp))) }) := by
  simp only [roomJoinPost]
  rw [if_neg (by simp [hrc, hd])]
  have hg : liveGet (store.rooms (normalizeRoomCode rRaw)) now
      = some (.record p) := by
    rw [hmb]
    simp [liveGet, hlive]
  simp only [hg]
  have httl : liveTtl (store.rooms (normalizeRoomCode rRaw)) now
      = (exp : Int) - now := by
    rw [hmb]
    rfl
  rw [httl, if_pos (by omega)]
  have e1 : ((exp : Int) - now).toNat = exp - now := by omega
  rw [e1]
  have e2 : now + (exp - now) = exp := by omega
  rw [e2]

/-- Join twice with the same device: the second join reports the same
member count, and both writes keep the room's original expiry. -/
theorem roomJoin_repeat (store : Store) (rRaw dRaw dl1 dl2 : String)
    (now now2 : Nat) (p : RoomPayload) (exp : Nat)
    (hrc : normalizeRoomCode rRaw ≠ "") (hd : normalizeDeviceId dRaw ≠ "")
    (hmb : store.rooms (normalizeRoomCode rRaw) = some (.record p, exp))
    (hlive : now < exp) (hlive2 : now2 < exp) :
    (roomJoinPost store rRaw dRaw dl1 now).1
      = .ok (normalizeRoomCode rRaw) (exp - now)
          (joinedMembers p (normalizeDeviceId dRaw)
            (normalizeDeviceLabel dl1) now).length ∧
    (roomJoinPost store rRaw dRaw dl1 now).2.rooms (normalizeRoomCode rRaw)
      = some (.record (joinedPayload p (normalizeDeviceId dRaw)
          (normalizeDeviceLabel dl1) now), exp) ∧
    (roomJoinPost (roomJoinPost store rRaw dRaw dl1 now).2
        rRaw dRaw dl2 now2).1
      = .ok (normalizeRoomCode rRaw) (exp - now2)
          (joinedMembers p (normalizeDeviceId dRaw)
            (normalizeDeviceLabel dl1) now).length ∧
    (roomJoinPost (roomJoinPost store rRaw dRaw dl1 now).2
        rRaw dRaw dl2 now2).2.rooms (normalizeRoomCode rRaw)
      = some (.record (joinedPayload
          (joinedPayload p (normalizeDeviceId dRaw)
            (normalizeDeviceLabel dl1) now)
          (normalizeDeviceId dRaw) (normalizeDeviceLabel dl2) now2), exp) := by
  have h1 := roomJoin_ok store rRaw dRaw dl1 now p exp hrc hd hmb hlive
  have hdfix : normalizeDeviceId (normalizeDeviceId dRaw)
      = normalizeDeviceId dRaw := normalizeDeviceId_fix hd
  have hs1 : (roomJoinPost store rRaw dRaw dl1 now).2.rooms
      (normalizeRoomCode rRaw)
      = some (.record (joinedPayload p (normalizeDeviceId dRaw)
          (normalizeDeviceLabel dl1) now), exp) := by
    rw [h1]
    simp [upd]
  have h2 := roomJoin_ok (roomJoinPost store rRaw dRaw dl1 now).2 rRaw dRaw
    dl2 now2 (joinedPayload p (normalizeDeviceId dRaw)
      (normalizeDeviceLabel dl1) now) exp hrc hd hs1 hlive2
  refine ⟨by rw [h1], hs1, ?_, ?_⟩
  · rw [h2]
    rw [joined_length_stable p (normalizeDeviceId dRaw)
      (normalizeDeviceLabel dl1) (normalizeDeviceLabel dl2) now now2
      hdfix hd]
  · rw [h2]
    simp [upd]

/-- **C7.**  Room join: it fails 404 without mutation when the room is
absent or expired; otherwise it upserts the caller into the members
deduplicated by device id and rewrites the record at its original absolute
expiry (the remaining TTL — never extending the room's lifetime), and a
repeat join by the same device reports the same member count. -/
theorem C7_room_join_semantics :
    (∀ (store : Store) (rRaw dRaw dlRaw : String) (now : Nat),
        normalizeRoomCode rRaw ≠ "" → normalizeDeviceId dRaw ≠ "" →
        liveGet (store.rooms (normalizeRoomCode rRaw)) now = none →
        roomJoinPost store rRaw dRaw dlRaw now = (.notFound, store)) ∧
    (∀ (store : Store) (rRaw dRaw dl1 dl2 : String) (now now2 : Nat)
        (p : RoomPayload) (exp : Nat),
        normalizeRoomCode rRaw ≠ "" → normalizeDeviceId dRaw ≠ "" →
        store.rooms (normalizeRoomCode rRaw) = some (.record p, exp) →
        now < exp → now2 < exp →
        (roomJoinPost store rRaw dRaw dl1 now).1
          = .ok (normalizeRoomCode rRaw) (exp - now)
              (joinedMembers p (normalizeDeviceId dRaw)
                (normalizeDeviceLabel dl1) now).length ∧
        (roomJoinPost store rRaw dRaw dl1 now).2.rooms
            (normalizeRoomCode rRaw)
          = some (.record (joinedPayload p (normalizeDeviceId dRaw)
              (normalizeDeviceLabel dl1) now), exp) ∧
        (roomJoinPost (roomJoinPost store rRaw dRaw dl1 now).2
            rRaw dRaw dl2 now2).1
          = .ok (normalizeRoomCode rRaw) (exp - now2)
              (joinedMembers p (normalizeDeviceId dRaw)
                (normalizeDeviceLabel dl1) now).length ∧
        (roomJoinPost (roomJoinPost store rRaw dRaw dl1 now).2
            rRaw dRaw dl2 now2).2.rooms (normalizeRoomCode rRaw)
          = some (.record (joinedPayload
              (joinedPayload p (normalizeDeviceId dRaw)
                (normalizeDeviceLabel dl1) now)
              (normalizeDeviceId dRaw) (normalizeDeviceLabel dl2) now2),
              exp)) :=
  ⟨roomJoin_notFound, roomJoin_repeat⟩

/-- **C7, witness**: joining a missing room 404s; joining the live room
`847362` as a second device gives member count 2 at the remaining TTL, a
repeat join still reports 2, and both writes keep the original expiry. -/
theorem C7_witness :
    roomJoinPost emptyStore "847362" "device-0002" "" 0
        = (.notFound, emptyStore) ∧
    (roomJoinPost c7Store "847362" "device-0002" "" 100).1
        = .ok "847362" 7100 2 ∧
    (roomJoinPost (roomJoinPost c7Store "847362" "device-0002" "" 100).2
        "847362" "device-0002" "lbl" 200).1 = .ok "847362" 7000 2 ∧
    (roomJoinPost (roomJoinPost c7Store "847362" "device-0002" "" 100).2
        "847362" "device-0002" "lbl" 200).2.rooms "847362"
      = some (.record (joinedPayload
          (joinedPayload c7Payload "device-0002" "" 100)
          "device-0002" "lbl" 200), 7200) :=
  ⟨C7_room_join_semantics.1 emptyStore "847362" "device-0002" "" 0
      (by decide) (by decide) rfl,
   (C7_room_join_semantics.2 c7Store "847362" "device-0002" "" "lbl" 100 200
      c7Payload 7200 (by decide) (by decide) rfl (by omega) (by omega)).1,
   (C7_room_join_semantics.2 c7Store "847362" "device-0002" "" "lbl" 100 200
      c7Payload 7200 (by decide) (by decide) rfl (by omega) (by omega)).2.2.1,
   (C7_room_join_semantics.2 c7Store "847362" "device-0002" "" "lbl" 100 200
      c7Payload 7200 (by decide) (by decide) rfl (by omega) (by omega)).2.2.2⟩

end Clipcode
